import Mathlib

/-!
Shallow embedding of the web-exfiltration taint-tracking engine: the event
data model, the trust-policy engine (`Policy`, `TrustGroup`, script sets),
the event logger (`ChromeClient.LogEvent`) and the log-correlation analyzer
(`ChromeClient.AnalyzePolicy`), translated from the Go source, together with
theorems settling the specification claims.

Machine integers (Go `int`) are modelled as `Int`; `time.Time` values are
modelled as `Int` (wall-clock is irrelevant to every claim); Go `nil`
pointers that the code actually branches on are modelled as `Option`.
-/

namespace WebExfil

/-- Go `strings.HasPrefix pre`, via the character list (kernel-reducible). -/
def strHasPre (pre s : String) : Bool :=
  pre.data.isPrefixOf s.data

/-- Go `strings.TrimPrefix`: drops `pre` when it is a prefix, else unchanged. -/
def strTrimPre (pre s : String) : String :=
  if strHasPre pre s then String.mk (s.data.drop pre.data.length) else s

/-! ### String constants used by the concrete fixtures -/

/-- The empty string. -/
def emptyStr : String := ""

/-- Fixture policy id. -/
def pid1 : String := "p1"

/-- Fixture policy id. -/
def pid2 : String := "p2"

/-- Fixture policy id. -/
def pid3 : String := "p3"

/-- Fixture policy id. -/
def pid4 : String := "p4"

/-- Fixture policy id. -/
def pidD : String := "pD"

/-- Fixture policy id. -/
def pid9 : String := "p9"

/-- Fixture policy id. -/
def pidW2 : String := "w2"

/-- Fixture policy id. -/
def pidP : String := "p"

/-- Fixture policy id. -/
def pidP6 : String := "P6"

/-- Fixture script id. -/
def sidS1 : String := "s1"

/-- Fixture script id (resolving to no trust group). -/
def sidU1 : String := "u1"

/-- Fixture script id. -/
def sidX : String := "x"

/-- Fixture script id. -/
def sidY : String := "y"

/-- Fixture script id. -/
def sidA : String := "a"

/-- Fixture script id. -/
def sidB : String := "b"

/-- Fixture script id. -/
def sidZ : String := "z"

/-- Fixture script id. -/
def sidR1 : String := "r1"

/-- Fixture script id. -/
def sidR2 : String := "r2"

/-- Fixture API name. -/
def nameGetCookie : String := "getCookie"

/-- Fixture API name. -/
def nameSetCookie : String := "setCookie"

/-- Fixture probe API name. -/
def nameProbe : String := "exfiltration_probe"

/-- Fixture initiator type. -/
def typScript : String := "script"

/-- Fixture document URL. -/
def docC1 : String := "http://doc"

/-- Fixture document URL. -/
def docC3 : String := "http://doc3"

/-- Fixture document URL. -/
def docOfD : String := "http://docD"

/-- Fixture document URL. -/
def docC4 : String := "http://doc4"

/-- Fixture document URL. -/
def docC7 : String := "http://d"

/-- Fixture request URL. -/
def urlEvilX : String := "https://evil/x"

/-- Fixture request URL. -/
def urlEvilY : String := "https://evil/y"

/-- Fixture request URL. -/
def urlHttpbinGet : String := "https://httpbin.org/get"

/-- Fixture resource type. -/
def resXHR : String := "XHR"

/-- Fixture trusted origin. -/
def originA : String := "https://a.example"

/-- Fixture script URL on the trusted origin. -/
def urlAjs : String := "https://a.example/s.js"

/-- Fixture script URL on another origin. -/
def urlBjs : String := "https://b.example/s.js"

/-- Fixture script URL. -/
def urlOfB : String := "http://b"

/-- Fixture hash. -/
def hashH1 : String := "h1"

/-- Fixture logs directory. -/
def logsDirW : String := "/tmp/logs"

/-! ## Event data model (events file) -/

/-- Go struct `RemoteScript {ScriptId, URL}`. -/
structure RemoteScript where
  ScriptId : String
  URL : String
deriving DecidableEq

/-- Go struct `InlineScript {ScriptId, Hash}`. -/
structure InlineScript where
  ScriptId : String
  Hash : String
deriving DecidableEq

/-- Go struct `TrustGroupState`. -/
structure TrustGroupState where
  Trusted : Bool
  RemoteScripts : List RemoteScript
  InlineScripts : List InlineScript
deriving DecidableEq

/-- Go struct `PolicyState`. -/
structure PolicyState where
  PolicyId : String
  TrustGroups : List TrustGroupState
deriving DecidableEq

/-- Go `TrustGroupState.GetRemoteScript`: first registered remote script with
the given scriptId, or nil. -/
def TrustGroupState.GetRemoteScript (s : TrustGroupState) (scriptId : String) :
    Option RemoteScript :=
  s.RemoteScripts.find? (fun rs => rs.ScriptId == scriptId)

/-- Go `TrustGroupState.GetInlineScript`. -/
def TrustGroupState.GetInlineScript (s : TrustGroupState) (scriptId : String) :
    Option InlineScript :=
  s.InlineScripts.find? (fun is => is.ScriptId == scriptId)

/-- Go `PolicyState.TrustGroupStateForScriptId`: the first trust-group state
holding the scriptId as a remote or inline script, or nil. -/
def PolicyState.TrustGroupStateForScriptId (s : PolicyState) (scriptId : String) :
    Option TrustGroupState :=
  s.TrustGroups.find? (fun tgs =>
    (tgs.GetRemoteScript scriptId).isSome || (tgs.GetInlineScript scriptId).isSome)

/-- Go `PolicyState.StackIsTrusted`: false as soon as one scriptId of the stack
resolves to no group or to an untrusted group, else true. -/
def PolicyState.StackIsTrusted (s : PolicyState) (scriptIdStack : List String) : Bool :=
  scriptIdStack.all (fun scriptId =>
    match s.TrustGroupStateForScriptId scriptId with
    | none => false
    | some tgs => tgs.Trusted)

/-- Whether a trust-group state holds the scriptId as a registered remote or
inline script. -/
def TrustGroupState.holdsId (tgs : TrustGroupState) (scriptId : String) : Bool :=
  (tgs.GetRemoteScript scriptId).isSome || (tgs.GetInlineScript scriptId).isSome

/-- Go struct `CallFrame`. -/
structure CallFrame where
  FunctionName : String
  ScriptId : String
  URL : String
  LineNumber : Int
  ColumnNumber : Int
deriving DecidableEq

/-- Go struct `StackTrace` (recursive via the optional async `Parent`). -/
inductive StackTrace where
  | mk (Description : String) (CallFrames : List CallFrame)
       (Parent : Option StackTrace) (ParentId : String)

/-- Field accessor for `StackTrace.CallFrames`. -/
def StackTrace.CallFrames : StackTrace → List CallFrame
  | .mk _ cf _ _ => cf

/-- Field accessor for `StackTrace.Parent`. -/
def StackTrace.Parent : StackTrace → Option StackTrace
  | .mk _ _ par _ => par

/-- Go struct `Initiator`; the Go field `Type` is spelled `Typ` (Lean keyword),
and the nil-able `*StackTrace` is an `Option`. -/
structure Initiator where
  Typ : String
  StackTrace : Option StackTrace
  URL : String
  LineNumber : Int

/-- Go struct `NetworkRequest`. -/
structure NetworkRequest where
  URL : String
  Method : String
  HasPostData : Bool
  IsLinkPreload : Bool
deriving DecidableEq

/-- Go struct `NetworkRequestInterceptedEvent`. -/
structure NetworkRequestInterceptedEvent where
  EventId : Int
  Timestamp : Int
  EventType : String
  PolicyId : String
  TargetId : String
  FrameId : String
  ResourceType : String
  IsNavigationRequest : Bool
  RedirectURL : String
  Request : NetworkRequest
  PolicyState : PolicyState

/-- Go struct `NetworkRequestWillBeSentEvent`; the nil-able `*Initiator` is an
`Option`, the `*PolicyState` is modelled non-optional (every logging site
stores a snapshot and the analyzer dereferences it unconditionally). -/
structure NetworkRequestWillBeSentEvent where
  EventId : Int
  Timestamp : Int
  EventType : String
  PolicyId : String
  TargetId : String
  Initiator : Option Initiator
  LoaderId : String
  FrameId : String
  HasUserGesture : Bool
  ResourceType : String
  DocumentURL : String
  Request : NetworkRequest
  PolicyState : PolicyState

/-- Go struct `APIAccessEvent`. -/
structure APIAccessEvent where
  EventId : Int
  Timestamp : Int
  EventType : String
  PolicyId : String
  TargetId : String
  APIName : String
  ScriptIdStack : List String
  PolicyState : PolicyState
deriving DecidableEq

/-- Go struct `DebuggerScriptParsedEvent`. -/
structure DebuggerScriptParsedEvent where
  EventId : Int
  Timestamp : Int
  EventType : String
  PolicyId : String
  TargetId : String
  ScriptId : String
  URL : String
  Hash : String
  StackTrace : Option StackTrace

/-- Go struct `PageLifecycleEvent`. -/
structure PageLifecycleEvent where
  EventId : Int
  Timestamp : Int
  EventType : String
  PolicyId : String
  TargetId : String
  FrameId : String
  LoaderId : String
  Name : String
  PolicyState : PolicyState

/-- The heterogeneous event-log element: Go stores `interface{}` values and
switches on the dynamic type; `unknownKind` stands for a value of any type
other than the five event kinds. -/
inductive Event where
  | networkRequestIntercepted (e : NetworkRequestInterceptedEvent)
  | networkRequestWillBeSent (e : NetworkRequestWillBeSentEvent)
  | apiAccess (e : APIAccessEvent)
  | debuggerScriptParsed (e : DebuggerScriptParsedEvent)
  | pageLifecycle (e : PageLifecycleEvent)
  | unknownKind (description : String)

/-- The eventId stored on an event (0 for an unknown kind, which is never
appended). -/
def Event.eventId : Event → Int
  | .networkRequestIntercepted v => v.EventId
  | .networkRequestWillBeSent v => v.EventId
  | .apiAccess v => v.EventId
  | .debuggerScriptParsed v => v.EventId
  | .pageLifecycle v => v.EventId
  | .unknownKind _ => 0

/-- Whether the dynamic value is one of the five event kinds accepted by the
logger. -/
def Event.isKnownKind : Event → Bool
  | .unknownKind _ => false
  | _ => true

/-- The analysis-relevant state of Go's `ChromeClient` (connections, channels
and process handles carry no event data and are omitted; `logsDir` and
`watchedTargets` are retained as representative non-log state). -/
structure ChromeClient where
  eventLog : List Event
  nextEventId : Int
  policyIds : List String
  logsDir : String
  watchedTargets : List String

/-- The state `NewChromeClient` starts from: empty log, eventId counter at its
Go zero value 0, no policies. -/
def NewChromeClientState (logsDir : String) : ChromeClient :=
  { eventLog := [], nextEventId := 0, policyIds := [], logsDir := logsDir,
    watchedTargets := [] }

/-- Go message used on an unknown event kind (`log.Panic("bad log event type", v)`). -/
def badLogEventMsg : String := "bad log event type"

/-- Go `ChromeClient.LogEvent`: assigns the next eventId by switching on the
event's kind, appends, and increments the counter; an unknown kind is a fatal
error (`log.Panic`) and appends nothing, modelled as `Except.error`. -/
def ChromeClient.LogEvent (cc : ChromeClient) (e : Event) : Except String ChromeClient :=
  match e with
  | .networkRequestIntercepted v =>
      .ok { cc with
        eventLog := cc.eventLog ++
          [Event.networkRequestIntercepted { v with EventId := cc.nextEventId }],
        nextEventId := cc.nextEventId + 1 }
  | .networkRequestWillBeSent v =>
      .ok { cc with
        eventLog := cc.eventLog ++
          [Event.networkRequestWillBeSent { v with EventId := cc.nextEventId }],
        nextEventId := cc.nextEventId + 1 }
  | .apiAccess v =>
      .ok { cc with
        eventLog := cc.eventLog ++
          [Event.apiAccess { v with EventId := cc.nextEventId }],
        nextEventId := cc.nextEventId + 1 }
  | .debuggerScriptParsed v =>
      .ok { cc with
        eventLog := cc.eventLog ++
          [Event.debuggerScriptParsed { v with EventId := cc.nextEventId }],
        nextEventId := cc.nextEventId + 1 }
  | .pageLifecycle v =>
      .ok { cc with
        eventLog := cc.eventLog ++
          [Event.pageLifecycle { v with EventId := cc.nextEventId }],
        nextEventId := cc.nextEventId + 1 }
  | .unknownKind _ => .error badLogEventMsg

/-- A sequence of `LogEvent` calls in one session. -/
def ChromeClient.LogEvents (cc : ChromeClient) : List Event → Except String ChromeClient
  | [] => .ok cc
  | e :: es =>
    match cc.LogEvent e with
    | .ok cc2 => cc2.LogEvents es
    | .error msg => .error msg

/-- The eventIds stored on a log, in append order. -/
def eventIdsOf (l : List Event) : List Int :=
  l.map Event.eventId

/-- Go `ChromeClient.NetworkRequestWillBeSentLogs` restricted to its input: the
will-be-sent events of one policy, in log order. -/
def willBeSentLogsOf (log : List Event) (policyId : String) :
    List NetworkRequestWillBeSentEvent :=
  log.filterMap (fun e =>
    match e with
    | .networkRequestWillBeSent c => if c.PolicyId == policyId then some c else none
    | _ => none)

/-- Go `ChromeClient.NetworkRequestWillBeSentLogs`. -/
def ChromeClient.NetworkRequestWillBeSentLogs (cc : ChromeClient) (policyId : String) :
    List NetworkRequestWillBeSentEvent :=
  willBeSentLogsOf cc.eventLog policyId

/-- Go `ChromeClient.APIAccessLogs` restricted to its input. -/
def apiAccessLogsOf (log : List Event) (policyId : String) : List APIAccessEvent :=
  log.filterMap (fun e =>
    match e with
    | .apiAccess c => if c.PolicyId == policyId then some c else none
    | _ => none)

/-- Go `ChromeClient.APIAccessLogs`. -/
def ChromeClient.APIAccessLogs (cc : ChromeClient) (policyId : String) :
    List APIAccessEvent :=
  apiAccessLogsOf cc.eventLog policyId

/-! ## Analyzer (`ChromeClient.AnalyzePolicy`) -/

/-- Go struct `PolicyAnalysis`. -/
structure PolicyAnalysis where
  PolicyId : String
  Description : String
  PolicyViolated : Bool
  TaintingAPIName : String
  ReqResourceType : String
  ReqURL : String
  ReqInitiator : String
  ReqStackScripts : List String
deriving DecidableEq

/-- The Go zero-valued `PolicyAnalysis{PolicyId: pid}`. -/
def emptyPolicyAnalysis (pid : String) : PolicyAnalysis :=
  { PolicyId := pid, Description := "", PolicyViolated := false,
    TaintingAPIName := "", ReqResourceType := "", ReqURL := "",
    ReqInitiator := "", ReqStackScripts := [] }

/-- The internal probe-API prefix. -/
def exfilPre : String := "exfiltration_"

/-- The tainting-event scan of `AnalyzePolicy`: the first APIAccessEvent that
is not an internal probe and whose call-stack is not fully trusted per its own
embedded PolicyState. -/
def findTaintingEvent (apiLogs : List APIAccessEvent) : Option APIAccessEvent :=
  apiLogs.find? (fun e =>
    !(strHasPre exfilPre e.APIName) && !(e.PolicyState.StackIsTrusted e.ScriptIdStack))

/-- The call-frame list both request checks inspect: the stack's own frames,
falling back to the parent's frames when the immediate list is empty and a
parent exists (Go: `cfv := st.CallFrames; if len(cfv)==0 && st.Parent != nil`). -/
def effectiveCallFrames (st : StackTrace) : List CallFrame :=
  match st.CallFrames, st.Parent with
  | [], some par => par.CallFrames
  | cfv, _ => cfv

/-- The primary check's frame-trust fold: a frame resolving to a known group
conjoins that group's `Trusted`; a frame resolving to no group only logs
"Unknown script ID" and leaves the accumulator unchanged. -/
def primaryStackTrusted (ps : PolicyState) (cfv : List CallFrame) : Bool :=
  cfv.foldl (fun stackTrusted cf =>
    match ps.TrustGroupStateForScriptId cf.ScriptId with
    | some tgs => stackTrusted && tgs.Trusted
    | none => stackTrusted) true

/-- The cross-target check's frame-trust fold (Go:
`stackTrusted = stackTrusted && (tgs != nil && tgs.Trusted)`): here an
unresolvable frame does make the stack untrusted. -/
def crossStackTrusted (ps : PolicyState) (cfv : List CallFrame) : Bool :=
  cfv.foldl (fun stackTrusted cf =>
    stackTrusted && (match ps.TrustGroupStateForScriptId cf.ScriptId with
      | some tgs => tgs.Trusted
      | none => false)) true

/-- The primary exfiltration scan over the policy's will-be-sent events: the
first event with a non-nil initiator stack, eventId greater than the tainting
event's, and a not-fully-trusted frame list (per `primaryStackTrusted`) sets
the violation fields and the exfiltration eventId; otherwise `(pa, 0)`. -/
def primaryCheck (taintingEventId : Int) (pa : PolicyAnalysis) :
    List NetworkRequestWillBeSentEvent → PolicyAnalysis × Int
  | [] => (pa, 0)
  | e :: rest =>
    match e.Initiator with
    | none => primaryCheck taintingEventId pa rest
    | some ini =>
      match ini.StackTrace with
      | none => primaryCheck taintingEventId pa rest
      | some st =>
        if e.EventId > taintingEventId then
          let cfv := effectiveCallFrames st
          let reqStackScripts := cfv.map (fun cf => cf.ScriptId)
          if primaryStackTrusted e.PolicyState cfv then
            primaryCheck taintingEventId pa rest
          else
            ({ pa with PolicyViolated := true,
                       ReqInitiator := ini.Typ,
                       ReqResourceType := e.ResourceType,
                       ReqURL := e.Request.URL,
                       ReqStackScripts := reqStackScripts }, e.EventId)
        else primaryCheck taintingEventId pa rest

/-- Resource type reported for a probe violation. -/
def docResourceType : String := "Document"

/-- Initiator reported for a probe violation. -/
def scriptInitiatorType : String := "script"

/-- The exfiltration-probe scan over the policy's APIAccess events: the first
`exfiltration_`-prefixed event with a not-fully-trusted stack, eventId greater
than the tainting event's, and (no violation yet, or an earlier eventId than
the one already found) supersedes the result. -/
def probeCheck (taintingEventId : Int) (pa : PolicyAnalysis) (exfiltrationEventId : Int) :
    List APIAccessEvent → PolicyAnalysis × Int
  | [] => (pa, exfiltrationEventId)
  | e :: rest =>
    if !(strHasPre exfilPre e.APIName) then
      probeCheck taintingEventId pa exfiltrationEventId rest
    else if e.PolicyState.StackIsTrusted e.ScriptIdStack then
      probeCheck taintingEventId pa exfiltrationEventId rest
    else if e.EventId > taintingEventId ∧
        (pa.PolicyViolated = false ∨ e.EventId < exfiltrationEventId) then
      ({ pa with PolicyViolated := true,
                 ReqResourceType := docResourceType,
                 ReqInitiator := scriptInitiatorType,
                 ReqStackScripts := e.ScriptIdStack }, e.EventId)
    else probeCheck taintingEventId pa exfiltrationEventId rest

/-- The cross-target scan over every policy id of the client (the Go loop
ranges over `cc.policyIds` without excluding the policy under analysis): each
policy's first will-be-sent event supersedes the result when its eventId
exceeds the tainting event's, it is earlier than any violation found so far,
its initiator stack is non-nil and that stack is not fully trusted against the
PolicyState of the analyzed policy's last APIAccess event. -/
def crossTargetCheck (cc : ChromeClient) (taintingEventId : Int)
    (apiLogs : List APIAccessEvent) (pa : PolicyAnalysis) (exfiltrationEventId : Int) :
    List String → PolicyAnalysis × Int
  | [] => (pa, exfiltrationEventId)
  | otherPid :: rest =>
    match cc.NetworkRequestWillBeSentLogs otherPid with
    | [] => crossTargetCheck cc taintingEventId apiLogs pa exfiltrationEventId rest
    | e :: _ =>
      match e.Initiator with
      | none => crossTargetCheck cc taintingEventId apiLogs pa exfiltrationEventId rest
      | some ini =>
        match ini.StackTrace with
        | none => crossTargetCheck cc taintingEventId apiLogs pa exfiltrationEventId rest
        | some st =>
          if e.EventId > taintingEventId ∧
              (pa.PolicyViolated = false ∨ e.EventId < exfiltrationEventId) then
            match apiLogs.getLast? with
            | none =>
              -- len(apiLogs) == 0: stackTrusted stays true, so the loop continues
              crossTargetCheck cc taintingEventId apiLogs pa exfiltrationEventId rest
            | some lastApi =>
              let cfv := effectiveCallFrames st
              let reqStackScripts := cfv.map (fun cf => cf.ScriptId)
              if crossStackTrusted lastApi.PolicyState cfv then
                crossTargetCheck cc taintingEventId apiLogs pa exfiltrationEventId rest
              else
                ({ pa with PolicyViolated := true,
                           ReqResourceType := e.ResourceType,
                           ReqInitiator := ini.Typ,
                           ReqURL := e.Request.URL,
                           ReqStackScripts := reqStackScripts }, e.EventId)
          else crossTargetCheck cc taintingEventId apiLogs pa exfiltrationEventId rest

/-- Go `ChromeClient.AnalyzePolicy`: description from the first will-be-sent
event, tainting event from the APIAccess scan, then the primary, probe and
cross-target checks in order. -/
def ChromeClient.AnalyzePolicy (cc : ChromeClient) (pid : String) : PolicyAnalysis :=
  let pa := emptyPolicyAnalysis pid
  match cc.NetworkRequestWillBeSentLogs pid with
  | [] => pa
  | firstPresend :: restPresend =>
    let presendLogs := firstPresend :: restPresend
    let pa := { pa with Description := firstPresend.DocumentURL }
    let apiLogs := cc.APIAccessLogs pid
    match findTaintingEvent apiLogs with
    | none => pa
    | some taintingEvent =>
      let pa := { pa with TaintingAPIName := taintingEvent.APIName }
      let r1 := primaryCheck taintingEvent.EventId pa presendLogs
      let r2 := probeCheck taintingEvent.EventId r1.fst r1.snd apiLogs
      let r3 := crossTargetCheck cc taintingEvent.EventId apiLogs r2.fst r2.snd cc.policyIds
      r3.fst

/-! ## Trust-policy engine (`Policy`, `TrustGroup`, `ScriptSet`) -/

/-- The `scheme`/`host` pair the hostname test reads off a parsed URL. -/
structure ParsedURL where
  Scheme : String
  Host : String
deriving DecidableEq

/-- A URL parser: stands for Go's `net/url.Parse`, abstracted to the two
fields the engine reads (`none` models a parse error). The library parser is
external to this repository, so the engine is parameterized over it. -/
def URLParser : Type := String → Option ParsedURL

/-- The three `ScriptSet` variants, as a closed tag. The FilterList matcher
(an external ad-block library, built once and shared) is abstracted to a
URL predicate; a matcher error is folded into `false` as the Go code does. -/
inductive ScriptSetKind where
  | universal
  | hostname (hostnames : List String)
  | filterList (matcher : String → Bool)

/-- A `ScriptSet` capability: its membership-test tag plus the scripts
registered so far (Go keeps these slices in each concrete set struct). -/
structure ScriptSet where
  kind : ScriptSetKind
  remoteScripts : List RemoteScript
  inlineScripts : List InlineScript

/-- Go `AddRemoteScript` (identical in all three variants): append. -/
def ScriptSet.AddRemoteScript (ss : ScriptSet) (scriptId scriptURL : String) : ScriptSet :=
  { ss with remoteScripts := ss.remoteScripts ++ [{ ScriptId := scriptId, URL := scriptURL }] }

/-- Go `AddInlineScript` (identical in all three variants): append. -/
def ScriptSet.AddInlineScript (ss : ScriptSet) (scriptId hash : String) : ScriptSet :=
  { ss with inlineScripts := ss.inlineScripts ++ [{ ScriptId := scriptId, Hash := hash }] }

/-- Go `ContainsRemoteScript`: Universal accepts everything; Hostname accepts
iff the URL parses and its `scheme://host` equals one of the configured
origins; FilterList defers to the shared matcher. -/
def ScriptSet.ContainsRemoteScript (parseURL : URLParser) (ss : ScriptSet)
    (_scriptId scriptURL : String) : Bool :=
  match ss.kind with
  | .universal => true
  | .hostname hostnames =>
    match parseURL scriptURL with
    | none => false
    | some u =>
      let origin := u.Scheme ++ "://" ++ u.Host
      hostnames.any (fun h => h == origin)
  | .filterList matcher => matcher scriptURL

/-- Go `ContainsInlineScript`: Universal and Hostname always accept; FilterList
never does. -/
def ScriptSet.ContainsInlineScript (ss : ScriptSet) (_scriptId _hash : String) : Bool :=
  match ss.kind with
  | .universal => true
  | .hostname _ => true
  | .filterList _ => false

/-- Go `RemoteScripts()` accessor: all three variants return the slice. -/
def ScriptSet.RemoteScriptsAcc (ss : ScriptSet) : List RemoteScript :=
  ss.remoteScripts

/-- Go `InlineScripts()` accessor: `FilterListScriptSet.InlineScripts` returns
nil unconditionally; the other two return the slice. -/
def ScriptSet.InlineScriptsAcc (ss : ScriptSet) : List InlineScript :=
  match ss.kind with
  | .filterList _ => []
  | _ => ss.inlineScripts

/-- Go struct `TrustGroup` (embedded mutex omitted; `Tainted` is declared but
never read by the engine). -/
structure TrustGroup where
  scriptSet : ScriptSet
  Trusted : Bool
  Tainted : Bool

/-- Delegation of the embedded `ScriptSet` method. -/
def TrustGroup.RemoteScripts (tg : TrustGroup) : List RemoteScript :=
  tg.scriptSet.RemoteScriptsAcc

/-- Delegation of the embedded `ScriptSet` method. -/
def TrustGroup.InlineScripts (tg : TrustGroup) : List InlineScript :=
  tg.scriptSet.InlineScriptsAcc

/-- Delegation of the embedded `ScriptSet` method. -/
def TrustGroup.ContainsRemoteScript (parseURL : URLParser) (tg : TrustGroup)
    (scriptId scriptURL : String) : Bool :=
  tg.scriptSet.ContainsRemoteScript parseURL scriptId scriptURL

/-- Delegation of the embedded `ScriptSet` method. -/
def TrustGroup.ContainsInlineScript (tg : TrustGroup) (scriptId hash : String) : Bool :=
  tg.scriptSet.ContainsInlineScript scriptId hash

/-- Mutation of a group's script set, to model Go's in-place
`tg.AddRemoteScript`. -/
def TrustGroup.AddRemoteScript (tg : TrustGroup) (scriptId scriptURL : String) : TrustGroup :=
  { tg with scriptSet := tg.scriptSet.AddRemoteScript scriptId scriptURL }

/-- Mutation of a group's script set, to model Go's in-place
`tg.AddInlineScript`. -/
def TrustGroup.AddInlineScript (tg : TrustGroup) (scriptId hash : String) : TrustGroup :=
  { tg with scriptSet := tg.scriptSet.AddInlineScript scriptId hash }

/-- Whether a trust group currently holds the scriptId (through the Go
accessors, so a FilterList group's inline scripts are invisible). -/
def TrustGroup.holdsScriptId (tg : TrustGroup) (scriptId : String) : Bool :=
  tg.RemoteScripts.any (fun s => s.ScriptId == scriptId) ||
    tg.InlineScripts.any (fun s => s.ScriptId == scriptId)

/-- Go struct `Policy`: identifier plus the trust groups in evaluation order. -/
structure Policy where
  Id : String
  trustGroups : List TrustGroup

/-- First group (with its position) satisfying a predicate. The position
models Go's pointer identity for the returned `*TrustGroup`. -/
def findGroupIdx (pred : TrustGroup → Bool) : List TrustGroup → Option (Nat × TrustGroup)
  | [] => none
  | tg :: rest =>
    if pred tg then some (0, tg)
    else (findGroupIdx pred rest).map (fun p => (p.fst + 1, p.snd))

/-- Replace the group at a position (models Go's in-place mutation through the
returned pointer). -/
def setGroupAt (f : TrustGroup → TrustGroup) : Nat → List TrustGroup → List TrustGroup
  | _, [] => []
  | 0, tg :: rest => f tg :: rest
  | n + 1, tg :: rest => tg :: setGroupAt f n rest

/-- Go `Policy.TrustGroupForScriptId` with the group's position: linear scan
of all groups' registered scripts. -/
def Policy.TrustGroupIdxForScriptId (p : Policy) (scriptId : String) :
    Option (Nat × TrustGroup) :=
  findGroupIdx (fun tg => tg.holdsScriptId scriptId) p.trustGroups

/-- Go `Policy.TrustGroupForScriptId`. -/
def Policy.TrustGroupForScriptId (p : Policy) (scriptId : String) : Option TrustGroup :=
  (p.TrustGroupIdxForScriptId scriptId).map (fun q => q.snd)

/-- The stack-inheritance walk of `RegisterRemoteScript`: Go ranges over
`st.CallFrames` (the immediate frame list only); the first frame whose
scriptId already belongs to a known untrusted group receives the new remote
script into that same group, which is returned immediately. -/
def registerRemoteViaStack (p : Policy) (scriptId scriptURL : String) :
    List CallFrame → Option (Policy × Nat)
  | [] => none
  | cf :: rest =>
    match p.TrustGroupIdxForScriptId cf.ScriptId with
    | some q =>
      if q.snd.Trusted then registerRemoteViaStack p scriptId scriptURL rest
      else
        let tgs := setGroupAt (fun tg => tg.AddRemoteScript scriptId scriptURL)
          q.fst p.trustGroups
        some ({ p with trustGroups := tgs }, q.fst)
    | none => registerRemoteViaStack p scriptId scriptURL rest

/-- The content-based fallback of `RegisterRemoteScript`: the first group in
policy order whose `ContainsRemoteScript` accepts receives the registration;
if none accepts, nothing is registered and nil is returned. -/
def registerRemoteViaContent (parseURL : URLParser) (p : Policy)
    (scriptId scriptURL : String) : Policy × Option Nat :=
  match findGroupIdx (fun tg => tg.ContainsRemoteScript parseURL scriptId scriptURL)
      p.trustGroups with
  | some q =>
    let tgs := setGroupAt (fun tg => tg.AddRemoteScript scriptId scriptURL)
      q.fst p.trustGroups
    ({ p with trustGroups := tgs }, some q.fst)
  | none => (p, none)

/-- Go `Policy.RegisterRemoteScript`; the returned position stands for the
returned `*TrustGroup` (none = nil). -/
def Policy.RegisterRemoteScript (parseURL : URLParser) (p : Policy)
    (scriptId scriptURL : String) (st : Option StackTrace) : Policy × Option Nat :=
  match st with
  | some stv =>
    match registerRemoteViaStack p scriptId scriptURL stv.CallFrames with
    | some r => (r.fst, some r.snd)
    | none => registerRemoteViaContent parseURL p scriptId scriptURL
  | none => registerRemoteViaContent parseURL p scriptId scriptURL

/-- The stack-inheritance walk of `RegisterInlineScript` (same shape as the
remote one, adding an inline script). -/
def registerInlineViaStack (p : Policy) (scriptId hash : String) :
    List CallFrame → Option (Policy × Nat)
  | [] => none
  | cf :: rest =>
    match p.TrustGroupIdxForScriptId cf.ScriptId with
    | some q =>
      if q.snd.Trusted then registerInlineViaStack p scriptId hash rest
      else
        let tgs := setGroupAt (fun tg => tg.AddInlineScript scriptId hash)
          q.fst p.trustGroups
        some ({ p with trustGroups := tgs }, q.fst)
    | none => registerInlineViaStack p scriptId hash rest

/-- The content-based fallback of `RegisterInlineScript`. -/
def registerInlineViaContent (p : Policy) (scriptId hash : String) : Policy × Option Nat :=
  match findGroupIdx (fun tg => tg.ContainsInlineScript scriptId hash) p.trustGroups with
  | some q =>
    let tgs := setGroupAt (fun tg => tg.AddInlineScript scriptId hash)
      q.fst p.trustGroups
    ({ p with trustGroups := tgs }, some q.fst)
  | none => (p, none)

/-- Go `Policy.RegisterInlineScript`. -/
def Policy.RegisterInlineScript (p : Policy) (scriptId hash : String)
    (st : Option StackTrace) : Policy × Option Nat :=
  match st with
  | some stv =>
    match registerInlineViaStack p scriptId hash stv.CallFrames with
    | some r => (r.fst, some r.snd)
    | none => registerInlineViaContent p scriptId hash
  | none => registerInlineViaContent p scriptId hash

/-- Go `Policy.TrustedGroup`: first group flagged trusted. -/
def Policy.TrustedGroup (p : Policy) : Option TrustGroup :=
  p.trustGroups.find? (fun tg => tg.Trusted)

/-- Go `Policy.TrustedScriptIds`: ids of every script (remote then inline) in
the first trusted group. -/
def Policy.TrustedScriptIds (p : Policy) : List String :=
  match p.TrustedGroup with
  | none => []
  | some tg =>
    tg.RemoteScripts.map (fun s => s.ScriptId) ++
      tg.InlineScripts.map (fun s => s.ScriptId)

/-- Go `Policy.State`: a value snapshot of every group's flag and scripts. -/
def Policy.State (p : Policy) : PolicyState :=
  { PolicyId := p.Id,
    TrustGroups := p.trustGroups.map (fun tg =>
      { Trusted := tg.Trusted,
        RemoteScripts := tg.RemoteScripts,
        InlineScripts := tg.InlineScripts }) }

/-- Go `NewHostnamePolicy` (modulo the random id): a trusted Hostname group
followed by an untrusted Universal group. -/
def NewHostnamePolicy (id : String) (hosts : List String) : Policy :=
  { Id := id,
    trustGroups := [
      { scriptSet := { kind := .hostname hosts, remoteScripts := [], inlineScripts := [] },
        Trusted := true, Tainted := false },
      { scriptSet := { kind := .universal, remoteScripts := [], inlineScripts := [] },
        Trusted := false, Tainted := false }] }

/-! ## Target pause handler (`Target.debuggerPaused`) -/

/-- The per-tab session state `Target` (connection capability omitted). -/
structure Target where
  TargetId : String
  NavHistory : List String
  Policy : Policy
  instrumentationScriptId : String

/-- The fields `debuggerPaused` reads off one protocol call frame
(`functionName`, `callFrameId`, and `location.scriptId`). -/
structure PausedCallFrame where
  FunctionName : String
  CallFrameId : String
  LocationScriptId : String
deriving DecidableEq

/-- The fields `debuggerPaused` reads off a `Debugger.paused` notification
(`Message` accessors default missing keys to `""`/empty list, so these fields
are total). -/
structure PausedParams where
  callFrames : List PausedCallFrame
  reason : String
  dataEventName : String
deriving DecidableEq

/-- The pause reason tagged with an event name. -/
def eventListenerReason : String := "EventListener"

/-- The instrumentation shim-access function-name prefix. -/
def shimPre : String := "shim_"

/-- Reason string for a generic pause. -/
def breakpointReason : String := "breakpoint"

/-- The fault message for `scriptIds[0]` on an empty slice. -/
def indexOutOfRangeMsg : String := "index out of range"

/-- The observable outcome of one `debuggerPaused` callback: the derived
reason string, whether trusted script ids were pushed back into the page,
the APIAccessEvent logged (eventId still unassigned, timestamp not modelled),
and whether `Debugger.resume` was reached. -/
structure PausedOutcome where
  reasonStr : String
  setVariableValue : Bool
  loggedAPIAccess : Option APIAccessEvent
  resumed : Bool
deriving DecidableEq

/-- Go `Target.debuggerPaused`: reads `scriptIds[0]` unconditionally on every
pause whose reason is not `EventListener` (a fault, modelled as
`Except.error`, reached before `Debugger.resume`); an instrumentation-frame
pause pushes trusted ids back and, on a `shim_` function name, logs an
APIAccessEvent with the full scriptId stack and a PolicyState snapshot. -/
def Target.debuggerPausedModel (t : Target) (p : PausedParams) :
    Except String PausedOutcome :=
  let scriptIds := p.callFrames.map (fun cf => cf.LocationScriptId)
  let reason := p.reason
  if reason = eventListenerReason then
    .ok { reasonStr := reason ++ ":" ++ p.dataEventName,
          setVariableValue := false, loggedAPIAccess := none, resumed := true }
  else
    match p.callFrames with
    | [] => .error indexOutOfRangeMsg
    | cf0 :: _ =>
      if cf0.LocationScriptId = t.instrumentationScriptId then
        let reasonStr := cf0.FunctionName
        let logged :=
          if strHasPre shimPre reasonStr then
            some { EventId := 0, Timestamp := 0, EventType := "APIAccess",
                   PolicyId := t.Policy.Id, TargetId := t.TargetId,
                   APIName := strTrimPre shimPre reasonStr,
                   ScriptIdStack := scriptIds,
                   PolicyState := t.Policy.State }
          else none
        .ok { reasonStr := reasonStr, setVariableValue := true,
              loggedAPIAccess := logged, resumed := true }
      else
        .ok { reasonStr := breakpointReason, setVariableValue := false,
              loggedAPIAccess := none, resumed := true }

/-! ## First-match descriptions of the three analyzer scans

Each scan of `AnalyzePolicy` is a loop that skips non-candidates and breaks on
the first candidate; the following candidate predicates and hit builders state
that behavior as a `List.find?`, for the characterization theorems. -/

/-- The initiator type of a will-be-sent event (empty when nil; the checks
only read it on events with an initiator). -/
def initiatorTypeOf (e : NetworkRequestWillBeSentEvent) : String :=
  match e.Initiator with
  | some ini => ini.Typ
  | none => ""

/-- The scriptIds of the event's effective initiator frames (empty when the
initiator or its stack is nil). -/
def effectiveStackScriptIds (e : NetworkRequestWillBeSentEvent) : List String :=
  match e.Initiator with
  | some ini =>
    match ini.StackTrace with
    | some st => (effectiveCallFrames st).map (fun cf => cf.ScriptId)
    | none => []
  | none => []

/-- Candidate of the primary check: non-nil initiator stack, eventId past the
tainting event, effective frames not fully trusted per `primaryStackTrusted`. -/
def primaryCandidate (taintingEventId : Int) (e : NetworkRequestWillBeSentEvent) : Bool :=
  match e.Initiator with
  | none => false
  | some ini =>
    match ini.StackTrace with
    | none => false
    | some st =>
      decide (e.EventId > taintingEventId) &&
        !(primaryStackTrusted e.PolicyState (effectiveCallFrames st))

/-- Fields the primary check copies out of its hit. -/
def primaryHit (pa : PolicyAnalysis) (e : NetworkRequestWillBeSentEvent) :
    PolicyAnalysis × Int :=
  ({ pa with PolicyViolated := true,
             ReqInitiator := initiatorTypeOf e,
             ReqResourceType := e.ResourceType,
             ReqURL := e.Request.URL,
             ReqStackScripts := effectiveStackScriptIds e }, e.EventId)

/-- Candidate of the probe check: probe-prefixed name, not-fully-trusted
stack, eventId past the tainting event, and earlier than (or instead of) the
violation found so far. -/
def probeCandidate (taintingEventId : Int) (pa : PolicyAnalysis)
    (exfiltrationEventId : Int) (e : APIAccessEvent) : Bool :=
  strHasPre exfilPre e.APIName &&
    !(e.PolicyState.StackIsTrusted e.ScriptIdStack) &&
    decide (e.EventId > taintingEventId) &&
    (!pa.PolicyViolated || decide (e.EventId < exfiltrationEventId))

/-- Fields the probe check copies out of its hit (note `ReqURL` is left as
the primary check set it). -/
def probeHit (pa : PolicyAnalysis) (e : APIAccessEvent) : PolicyAnalysis × Int :=
  ({ pa with PolicyViolated := true,
             ReqResourceType := docResourceType,
             ReqInitiator := scriptInitiatorType,
             ReqStackScripts := e.ScriptIdStack }, e.EventId)

/-- Candidate of the cross-target check, over a policy id: its first
will-be-sent event exists, has a non-nil initiator stack, eventId past the
tainting event, earlier than the violation found so far, and frames not fully
trusted (per `crossStackTrusted`) against the PolicyState of the analyzed
policy's last APIAccess event. -/
def crossCandidate (cc : ChromeClient) (taintingEventId : Int)
    (apiLogs : List APIAccessEvent) (pa : PolicyAnalysis)
    (exfiltrationEventId : Int) (otherPid : String) : Bool :=
  match cc.NetworkRequestWillBeSentLogs otherPid with
  | [] => false
  | e :: _ =>
    match e.Initiator with
    | none => false
    | some ini =>
      match ini.StackTrace with
      | none => false
      | some st =>
        decide (e.EventId > taintingEventId) &&
          (!pa.PolicyViolated || decide (e.EventId < exfiltrationEventId)) &&
          (match apiLogs.getLast? with
           | none => false
           | some lastApi =>
             !(crossStackTrusted lastApi.PolicyState (effectiveCallFrames st)))

/-- Fields the cross-target check copies out of its hit. -/
def crossHit (cc : ChromeClient) (pa : PolicyAnalysis) (otherPid : String) :
    PolicyAnalysis × Int :=
  match cc.NetworkRequestWillBeSentLogs otherPid with
  | [] => (pa, 0)
  | e :: _ =>
    ({ pa with PolicyViolated := true,
               ReqResourceType := e.ResourceType,
               ReqInitiator := initiatorTypeOf e,
               ReqURL := e.Request.URL,
               ReqStackScripts := effectiveStackScriptIds e }, e.EventId)

/-! ## Claim-worded variants

Each definition below renders a claim's wording where it differs from the
source, for the refutation theorems that compare the two. -/

/-- Claim C2's right-hand side as worded: every scriptId of the stack belongs
to some trust group of the state, and every group containing it is trusted. -/
def stackTrustedClaimC2 (s : PolicyState) (scriptIdStack : List String) : Bool :=
  scriptIdStack.all (fun scriptId =>
    s.TrustGroups.any (fun tgs => tgs.holdsId scriptId) &&
      s.TrustGroups.all (fun tgs => !(tgs.holdsId scriptId) || tgs.Trusted))

/-- The primary check as claim C1 words it: frame trust judged by the
stack-trust predicate (`PolicyState.StackIsTrusted`), under which an unknown
scriptId makes the stack untrusted. The source instead ignores unknown
scriptIds in this check. -/
def primaryCheckClaimC1 (taintingEventId : Int) (pa : PolicyAnalysis) :
    List NetworkRequestWillBeSentEvent → PolicyAnalysis × Int
  | [] => (pa, 0)
  | e :: rest =>
    match e.Initiator with
    | none => primaryCheckClaimC1 taintingEventId pa rest
    | some ini =>
      match ini.StackTrace with
      | none => primaryCheckClaimC1 taintingEventId pa rest
      | some st =>
        if e.EventId > taintingEventId then
          let cfv := effectiveCallFrames st
          let reqStackScripts := cfv.map (fun cf => cf.ScriptId)
          if e.PolicyState.StackIsTrusted reqStackScripts then
            primaryCheckClaimC1 taintingEventId pa rest
          else
            ({ pa with PolicyViolated := true,
                       ReqInitiator := ini.Typ,
                       ReqResourceType := e.ResourceType,
                       ReqURL := e.Request.URL,
                       ReqStackScripts := reqStackScripts }, e.EventId)
        else primaryCheckClaimC1 taintingEventId pa rest

/-- `AnalyzePolicy` with the primary check replaced by claim C1's wording. -/
def AnalyzePolicyClaimC1 (cc : ChromeClient) (pid : String) : PolicyAnalysis :=
  let pa := emptyPolicyAnalysis pid
  match cc.NetworkRequestWillBeSentLogs pid with
  | [] => pa
  | firstPresend :: restPresend =>
    let presendLogs := firstPresend :: restPresend
    let pa := { pa with Description := firstPresend.DocumentURL }
    let apiLogs := cc.APIAccessLogs pid
    match findTaintingEvent apiLogs with
    | none => pa
    | some taintingEvent =>
      let pa := { pa with TaintingAPIName := taintingEvent.APIName }
      let r1 := primaryCheckClaimC1 taintingEvent.EventId pa presendLogs
      let r2 := probeCheck taintingEvent.EventId r1.fst r1.snd apiLogs
      let r3 := crossTargetCheck cc taintingEvent.EventId apiLogs r2.fst r2.snd cc.policyIds
      r3.fst

/-- The probe check as claim C3 words it: any probe past the tainting event
that is earlier than the violation so far supersedes, with no condition on
the probe's own stack trust. The source also requires the probe's stack to be
not fully trusted. -/
def probeCheckClaimC3 (taintingEventId : Int) (pa : PolicyAnalysis)
    (exfiltrationEventId : Int) : List APIAccessEvent → PolicyAnalysis × Int
  | [] => (pa, exfiltrationEventId)
  | e :: rest =>
    if !(strHasPre exfilPre e.APIName) then
      probeCheckClaimC3 taintingEventId pa exfiltrationEventId rest
    else if e.EventId > taintingEventId ∧
        (pa.PolicyViolated = false ∨ e.EventId < exfiltrationEventId) then
      ({ pa with PolicyViolated := true,
                 ReqResourceType := docResourceType,
                 ReqInitiator := scriptInitiatorType,
                 ReqStackScripts := e.ScriptIdStack }, e.EventId)
    else probeCheckClaimC3 taintingEventId pa exfiltrationEventId rest

/-- `AnalyzePolicy` with the probe check replaced by claim C3's wording. -/
def AnalyzePolicyClaimC3 (cc : ChromeClient) (pid : String) : PolicyAnalysis :=
  let pa := emptyPolicyAnalysis pid
  match cc.NetworkRequestWillBeSentLogs pid with
  | [] => pa
  | firstPresend :: restPresend =>
    let presendLogs := firstPresend :: restPresend
    let pa := { pa with Description := firstPresend.DocumentURL }
    let apiLogs := cc.APIAccessLogs pid
    match findTaintingEvent apiLogs with
    | none => pa
    | some taintingEvent =>
      let pa := { pa with TaintingAPIName := taintingEvent.APIName }
      let r1 := primaryCheck taintingEvent.EventId pa presendLogs
      let r2 := probeCheckClaimC3 taintingEvent.EventId r1.fst r1.snd apiLogs
      let r3 := crossTargetCheck cc taintingEvent.EventId apiLogs r2.fst r2.snd cc.policyIds
      r3.fst

/-- The cross-target check as claim C4 words it: only policies other than the
one being analyzed are considered. The source ranges over all of
`cc.policyIds`. -/
def crossTargetCheckClaimC4 (cc : ChromeClient) (pid : String) (taintingEventId : Int)
    (apiLogs : List APIAccessEvent) (pa : PolicyAnalysis) (exfiltrationEventId : Int) :
    List String → PolicyAnalysis × Int
  | [] => (pa, exfiltrationEventId)
  | otherPid :: rest =>
    if otherPid == pid then
      crossTargetCheckClaimC4 cc pid taintingEventId apiLogs pa exfiltrationEventId rest
    else
      match cc.NetworkRequestWillBeSentLogs otherPid with
      | [] => crossTargetCheckClaimC4 cc pid taintingEventId apiLogs pa exfiltrationEventId rest
      | e :: _ =>
        match e.Initiator with
        | none => crossTargetCheckClaimC4 cc pid taintingEventId apiLogs pa exfiltrationEventId rest
        | some ini =>
          match ini.StackTrace with
          | none => crossTargetCheckClaimC4 cc pid taintingEventId apiLogs pa exfiltrationEventId rest
          | some st =>
            if e.EventId > taintingEventId ∧
                (pa.PolicyViolated = false ∨ e.EventId < exfiltrationEventId) then
              match apiLogs.getLast? with
              | none =>
                crossTargetCheckClaimC4 cc pid taintingEventId apiLogs pa exfiltrationEventId rest
              | some lastApi =>
                let cfv := effectiveCallFrames st
                let reqStackScripts := cfv.map (fun cf => cf.ScriptId)
                if crossStackTrusted lastApi.PolicyState cfv then
                  crossTargetCheckClaimC4 cc pid taintingEventId apiLogs pa exfiltrationEventId rest
                else
                  ({ pa with PolicyViolated := true,
                             ReqResourceType := e.ResourceType,
                             ReqInitiator := ini.Typ,
                             ReqURL := e.Request.URL,
                             ReqStackScripts := reqStackScripts }, e.EventId)
            else crossTargetCheckClaimC4 cc pid taintingEventId apiLogs pa exfiltrationEventId rest

/-- `AnalyzePolicy` with the cross-target check replaced by claim C4's
wording. -/
def AnalyzePolicyClaimC4 (cc : ChromeClient) (pid : String) : PolicyAnalysis :=
  let pa := emptyPolicyAnalysis pid
  match cc.NetworkRequestWillBeSentLogs pid with
  | [] => pa
  | firstPresend :: restPresend =>
    let presendLogs := firstPresend :: restPresend
    let pa := { pa with Description := firstPresend.DocumentURL }
    let apiLogs := cc.APIAccessLogs pid
    match findTaintingEvent apiLogs with
    | none => pa
    | some taintingEvent =>
      let pa := { pa with TaintingAPIName := taintingEvent.APIName }
      let r1 := primaryCheck taintingEvent.EventId pa presendLogs
      let r2 := probeCheck taintingEvent.EventId r1.fst r1.snd apiLogs
      let r3 := crossTargetCheckClaimC4 cc pid taintingEvent.EventId apiLogs r2.fst r2.snd
        cc.policyIds
      r3.fst

/-- Every frame of a stack trace including its async parent segments, in walk
order — the call chain claim C5 says the inheritance step ranges over (the
source ranges over the immediate frame list only). -/
def allChainFrames : StackTrace → List CallFrame
  | .mk _ cfv none _ => cfv
  | .mk _ cfv (some par) _ => cfv ++ allChainFrames par

/-- `RegisterRemoteScript` as claim C5 words its inheritance step: the walk
covers the supplied call chain including async parent segments. -/
def RegisterRemoteScriptClaimC5 (parseURL : URLParser) (p : Policy)
    (scriptId scriptURL : String) (st : Option StackTrace) : Policy × Option Nat :=
  match st with
  | some stv =>
    match registerRemoteViaStack p scriptId scriptURL (allChainFrames stv) with
    | some r => (r.fst, some r.snd)
    | none => registerRemoteViaContent parseURL p scriptId scriptURL
  | none => registerRemoteViaContent parseURL p scriptId scriptURL

/-- Whether the scriptId already belongs to a known, untrusted group of the
policy (the inheritance trigger). -/
def resolvesUntrusted (p : Policy) (scriptId : String) : Bool :=
  match p.TrustGroupForScriptId scriptId with
  | some tg => !tg.Trusted
  | none => false

/-! ## Concrete fixtures

Small concrete states and logs used by the refutation and witness theorems. -/

/-- A call frame carrying only a scriptId. -/
def mkCF (scriptId : String) : CallFrame :=
  { FunctionName := "", ScriptId := scriptId, URL := "", LineNumber := 0,
    ColumnNumber := 0 }

/-- A trust-group state holding the given remote-script ids. -/
def mkTGS (trusted : Bool) (remoteIds : List String) : TrustGroupState :=
  { Trusted := trusted,
    RemoteScripts := remoteIds.map (fun i => { ScriptId := i, URL := "" }),
    InlineScripts := [] }

/-- A policy-state snapshot from trust-group states. -/
def mkPS (policyId : String) (gs : List TrustGroupState) : PolicyState :=
  { PolicyId := policyId, TrustGroups := gs }

/-- An APIAccess event fixture. -/
def mkAPI (id : Int) (policyId apiName : String) (stack : List String)
    (ps : PolicyState) : APIAccessEvent :=
  { EventId := id, Timestamp := 0, EventType := "APIAccess", PolicyId := policyId,
    TargetId := "", APIName := apiName, ScriptIdStack := stack, PolicyState := ps }

/-- An initiator with a single-segment stack over the given frame scriptIds. -/
def mkIni (typ : String) (frameIds : List String) : Initiator :=
  { Typ := typ, StackTrace := some (.mk emptyStr (frameIds.map mkCF) none emptyStr),
    URL := "", LineNumber := 0 }

/-- A will-be-sent event fixture. -/
def mkPresend (id : Int) (policyId docURL reqURL resType : String)
    (ini : Option Initiator) (ps : PolicyState) : NetworkRequestWillBeSentEvent :=
  { EventId := id, Timestamp := 0, EventType := "NetworkRequestWillBeSent",
    PolicyId := policyId, TargetId := "", Initiator := ini, LoaderId := "",
    FrameId := "", HasUserGesture := false, ResourceType := resType,
    DocumentURL := docURL,
    Request := { URL := reqURL, Method := "", HasPostData := false,
                 IsLinkPreload := false },
    PolicyState := ps }

/-- A client state over a log and policy-id list. -/
def mkCC (log : List Event) (pids : List String) : ChromeClient :=
  { eventLog := log, nextEventId := 0, policyIds := pids, logsDir := "",
    watchedTargets := [] }

/-- C1 fixture: one untrusted group holding script `s1`. -/
def psC1 : PolicyState := mkPS pid1 [mkTGS false [sidS1]]

/-- C1 fixture log: a tainting access by `s1` at eventId 1, then a request at
eventId 2 whose initiator frame `u1` resolves to no known group. -/
def ccC1 : ChromeClient :=
  mkCC
    [Event.apiAccess (mkAPI 1 pid1 nameGetCookie [sidS1] psC1),
     Event.networkRequestWillBeSent
       (mkPresend 2 pid1 docC1 urlEvilX resXHR
         (some (mkIni typScript [sidU1])) psC1)]
    []

/-- C2 fixture: scriptId `x` registered in a trusted group first and in an
untrusted group second. -/
def psC2 : PolicyState := mkPS pid2 [mkTGS true [sidX], mkTGS false [sidX]]

/-- C3 fixture: an `exfiltration_probe` whose scriptId stack is empty (hence
fully trusted) at eventId 5, tainting at eventId 3. -/
def psC3 : PolicyState := mkPS pid3 [mkTGS false [sidS1]]

/-- C3 fixture log. -/
def ccC3 : ChromeClient :=
  mkCC
    [Event.networkRequestWillBeSent
       (mkPresend 2 pid3 docC3 emptyStr emptyStr none psC3),
     Event.apiAccess (mkAPI 3 pid3 nameGetCookie [sidS1] psC3),
     Event.apiAccess (mkAPI 5 pid3 nameProbe [] psC3)]
    []

/-- Scenario-D fixture state (claim C3): one untrusted group holding `s1`. -/
def psD : PolicyState := mkPS pidD [mkTGS false [sidS1]]

/-- Scenario-D fixture log: tainting at eventId 3, an untrusted
`exfiltration_probe` at eventId 5, and an ordinary network request flagged by
the primary check at eventId 8. -/
def ccD : ChromeClient :=
  mkCC
    [Event.networkRequestWillBeSent
       (mkPresend 2 pidD docOfD emptyStr emptyStr none psD),
     Event.apiAccess (mkAPI 3 pidD nameGetCookie [sidS1] psD),
     Event.apiAccess (mkAPI 5 pidD nameProbe [sidS1] psD),
     Event.networkRequestWillBeSent
       (mkPresend 8 pidD docOfD urlHttpbinGet resXHR
         (some (mkIni typScript [sidS1])) psD)]
    []

/-- C4 fixture: one untrusted group holding `s1`; the initiator frame `u1`
resolves to no group, so the primary check skips the request but the
cross-target check (whose fold treats unknown ids as untrusted) flags it. -/
def psC4 : PolicyState := mkPS pid4 [mkTGS false [sidS1]]

/-- C4 fixture log: the analyzed policy is the only policy id, and its own
first will-be-sent event supersedes the (empty) result in the cross-target
scan. -/
def ccC4 : ChromeClient :=
  mkCC
    [Event.apiAccess (mkAPI 1 pid4 nameGetCookie [sidS1] psC4),
     Event.networkRequestWillBeSent
       (mkPresend 2 pid4 docC4 urlEvilY resXHR
         (some (mkIni typScript [sidU1])) psC4)]
    [pid4]

/-- A URL parser that fails on every input (the C5 fixture never consults
it: both groups are Universal). -/
def parseNone : URLParser := fun _ => none

/-- C5 fixture: the trusted Universal group. -/
def tgC5Trusted : TrustGroup :=
  { scriptSet := { kind := .universal, remoteScripts := [], inlineScripts := [] },
    Trusted := true, Tainted := false }

/-- C5 fixture: the untrusted Universal group, already holding script `a`. -/
def tgC5Untrusted : TrustGroup :=
  { scriptSet := { kind := .universal,
                   remoteScripts := [{ ScriptId := sidA, URL := emptyStr }],
                   inlineScripts := [] },
    Trusted := false, Tainted := false }

/-- C5 fixture policy: a trusted Universal group first, then an untrusted
Universal group already holding script `a`. -/
def pC5 : Policy :=
  { Id := "P5", trustGroups := [tgC5Trusted, tgC5Untrusted] }

/-- C5 fixture stack: an empty immediate frame list whose async parent
segment's only frame is script `a` (registered untrusted). -/
def stC5 : StackTrace :=
  .mk emptyStr [] (some (.mk emptyStr [mkCF sidA] none emptyStr)) emptyStr

/-- The parse of `urlAjs`. -/
def parsedA : ParsedURL := { Scheme := "https", Host := "a.example" }

/-- The parse of `urlBjs`. -/
def parsedB : ParsedURL := { Scheme := "https", Host := "b.example" }

/-- C6 witness parser: resolves the two script URLs used by the witness. -/
def parseC6 : URLParser := fun u =>
  if u = urlAjs then some parsedA
  else if u = urlBjs then some parsedB
  else none

/-- C6 witness policy: Hostname policy trusting origin `https://a.example`. -/
def pC6 : Policy := NewHostnamePolicy pidP6 [originA]

/-- The first (trusted, Hostname) group of `pC6`. -/
def tgC6a : TrustGroup :=
  { scriptSet := { kind := .hostname [originA], remoteScripts := [], inlineScripts := [] },
    Trusted := true, Tainted := false }

/-- The second (untrusted, Universal) group of `pC6`. -/
def tgC6b : TrustGroup :=
  { scriptSet := { kind := .universal, remoteScripts := [], inlineScripts := [] },
    Trusted := false, Tainted := false }

/-- An empty policy-state snapshot (C7 fixture). -/
def psEmpty : PolicyState := mkPS pidP []

/-- C7 witness events: three well-kinded events (their pre-set eventIds are
overwritten by the logger). -/
def esC7 : List Event :=
  [Event.apiAccess (mkAPI 7 pidP nameGetCookie [] psEmpty),
   Event.networkRequestWillBeSent (mkPresend 9 pidP docC7 emptyStr emptyStr none psEmpty),
   Event.apiAccess (mkAPI 4 pidP nameSetCookie [] psEmpty)]

/-- C8 witness pair: same event log and policy ids, different counter and
auxiliary state. -/
def ccC8a : ChromeClient :=
  { eventLog := (ccD).eventLog, nextEventId := 17, policyIds := [pidD],
    logsDir := "/tmp/a", watchedTargets := ["t1"] }

/-- The second client of the C8 witness pair. -/
def ccC8b : ChromeClient :=
  { eventLog := (ccD).eventLog, nextEventId := 99, policyIds := [pidD],
    logsDir := "/tmp/b", watchedTargets := [] }

/-- C9 witness: an APIAccess event with a non-empty untrusted stack. -/
def apiC9 : APIAccessEvent := mkAPI 1 pid9 nameGetCookie [sidS1] (mkPS pid9 [mkTGS false [sidS1]])

/-- C2 witness state: one trusted group owning `y` alone. -/
def psW2 : PolicyState := mkPS pidW2 [mkTGS true [sidY]]

/-- C5 witness stack: a single immediate frame, script `a` (registered in the
untrusted group of `pC5`). -/
def stW5 : StackTrace := .mk emptyStr [mkCF sidA] none emptyStr

/-- C5 witness stack with no inheritable frame. -/
def stW5b : StackTrace := .mk emptyStr [mkCF sidZ] none emptyStr

/-- C10 witness target. -/
def tC10 : Target :=
  { TargetId := "t", NavHistory := [], Policy := { Id := "P", trustGroups := [] },
    instrumentationScriptId := "42" }

/-- C10 witness pause notification: empty call frames, non-EventListener
reason. -/
def pausedC10 : PausedParams :=
  { callFrames := [], reason := "other", dataEventName := "" }

/-- C10 second witness pause notification: EventListener reason with empty
call frames (handled without fault). -/
def pausedC10b : PausedParams :=
  { callFrames := [], reason := "EventListener", dataEventName := "click" }

/-! ## Shared lemmas -/

/-- `TrustGroupStateForScriptId` is the first-containing-group search. -/
theorem trustGroupStateForScriptId_eq_find (s : PolicyState) (sid : String) :
    s.TrustGroupStateForScriptId sid = s.TrustGroups.find? (fun tgs => tgs.holdsId sid) :=
  rfl

/-- `StackIsTrusted` holds exactly when every stack scriptId resolves (to the
first group containing it) and that group is trusted. -/
theorem stackIsTrusted_eq_true_iff (s : PolicyState) (stack : List String) :
    s.StackIsTrusted stack = true ↔
      ∀ sid ∈ stack, ∃ tgs, s.TrustGroupStateForScriptId sid = some tgs ∧
        tgs.Trusted = true := by
  simp only [PolicyState.StackIsTrusted, List.all_eq_true]
  refine forall_congr' fun sid => forall_congr' fun _ => ?_
  cases h : s.TrustGroupStateForScriptId sid with
  | none => simp [h]
  | some tgs => simp [h]

/-! ## Claim C2 -/

/-- C2 counterexample: in a state where scriptId `x` is registered both in a
trusted group (first) and in an untrusted group (second), `StackIsTrusted`
returns true for the stack `[x]`, while the claim's right-hand side — every
group containing each stack scriptId has `Trusted = true` — is false, so the
claimed equivalence fails at this state. -/
theorem stackIsTrusted_everyGroup_counterexample :
    psC2.StackIsTrusted [sidX] = true ∧ stackTrustedClaimC2 psC2 [sidX] = false := by
  decide

/-- C2 (amended): provided no two groups that both contain a given stack
scriptId disagree on `Trusted` (scripts are owned by exactly one group in
practice), `StackIsTrusted` returns true iff every scriptId of the stack
belongs to some trust group of the state and every such group has
`Trusted = true`; without that proviso only the first containing group is
consulted. -/
theorem stackIsTrusted_unique_owner_iff (s : PolicyState) (stack : List String)
    (huniq : ∀ sid ∈ stack, ∀ g1 ∈ s.TrustGroups, ∀ g2 ∈ s.TrustGroups,
      g1.holdsId sid = true → g2.holdsId sid = true → g1.Trusted = g2.Trusted) :
    s.StackIsTrusted stack = true ↔
      ∀ sid ∈ stack,
        (∃ g ∈ s.TrustGroups, g.holdsId sid = true) ∧
          ∀ g ∈ s.TrustGroups, g.holdsId sid = true → g.Trusted = true := by
  rw [stackIsTrusted_eq_true_iff]
  constructor
  · intro h sid hsid
    obtain ⟨tgs, hfind, htr⟩ := h sid hsid
    rw [trustGroupStateForScriptId_eq_find] at hfind
    have hmem := List.mem_of_find?_eq_some hfind
    have hholds := List.find?_some hfind
    refine ⟨⟨tgs, hmem, hholds⟩, fun g hg hgh => ?_⟩
    exact (huniq sid hsid g hg tgs hmem hgh hholds).trans htr
  · intro h sid hsid
    obtain ⟨⟨g, hg, hgh⟩, hall⟩ := h sid hsid
    cases hfind : s.TrustGroups.find? (fun tgs => tgs.holdsId sid) with
    | none =>
      have : (s.TrustGroups.find? (fun tgs => tgs.holdsId sid)).isSome := by
        exact List.find?_isSome.mpr ⟨g, hg, hgh⟩
      rw [hfind] at this
      exact absurd this (by simp)
    | some g0 =>
      refine ⟨g0, ?_, ?_⟩
      · rw [trustGroupStateForScriptId_eq_find, hfind]
      · have hh := List.find?_some hfind
        exact hall g0 (List.mem_of_find?_eq_some hfind) hh

/-- C2 witness: the amended equivalence applied to a one-group state owning
scriptId `y`. -/
theorem stackIsTrusted_unique_owner_iff_witness :
    psW2.StackIsTrusted [sidY] = true ↔
      ∀ sid ∈ [sidY],
        (∃ g ∈ psW2.TrustGroups, g.holdsId sid = true) ∧
          ∀ g ∈ psW2.TrustGroups, g.holdsId sid = true → g.Trusted = true :=
  stackIsTrusted_unique_owner_iff psW2 [sidY] (by decide)

/-! ## Claim C9 -/

/-- C9: the empty scriptId stack is trusted under every PolicyState, and
consequently `findTaintingEvent` — the tainting-event selection of
`AnalyzePolicy` — never selects an APIAccessEvent whose `ScriptIdStack` is
empty. -/
theorem emptyStack_trusted_never_tainting :
    (∀ s : PolicyState, s.StackIsTrusted [] = true)
    ∧ ∀ (apiLogs : List APIAccessEvent) (e : APIAccessEvent),
        findTaintingEvent apiLogs = some e → e.ScriptIdStack ≠ [] := by
  constructor
  · intro s; rfl
  · intro apiLogs e hfind hstack
    have hp := List.find?_some hfind
    simp only [Bool.and_eq_true, Bool.not_eq_true'] at hp
    rw [hstack] at hp
    simp [PolicyState.StackIsTrusted] at hp

/-- C9 witness: the empty stack is trusted under the empty state, and a
concrete tainting event has a non-empty stack. -/
theorem emptyStack_trusted_never_tainting_witness :
    psEmpty.StackIsTrusted [] = true ∧ apiC9.ScriptIdStack ≠ [] :=
  ⟨emptyStack_trusted_never_tainting.1 psEmpty,
   emptyStack_trusted_never_tainting.2 [apiC9] apiC9 (by decide)⟩

/-! ## Claim C1 -/

/-- The primary check's trust fold, from an arbitrary accumulator: unknown
scriptIds are skipped. -/
theorem primaryFold_eq_all (ps : PolicyState) (cfv : List CallFrame) (b : Bool) :
    cfv.foldl (fun stackTrusted cf =>
      match ps.TrustGroupStateForScriptId cf.ScriptId with
      | some tgs => stackTrusted && tgs.Trusted
      | none => stackTrusted) b =
      (b && cfv.all (fun cf =>
        match ps.TrustGroupStateForScriptId cf.ScriptId with
        | some tgs => tgs.Trusted
        | none => true)) := by
  induction cfv generalizing b with
  | nil => simp
  | cons cf rest ih =>
    simp only [List.foldl_cons, List.all_cons]
    cases h : ps.TrustGroupStateForScriptId cf.ScriptId with
    | none => simp [h, ih]
    | some tgs => simp [h, ih, Bool.and_assoc]

/-- C1 counterexample: in `ccC1` the only request past the tainting event has
a single initiator frame whose scriptId resolves to no known trust group.
Judged by the stack-trust predicate (as the claim states) the stack is
untrusted and the event is the violation, but `AnalyzePolicy` reports no
violation: the primary check ignores unknown scriptIds. -/
theorem primaryCheck_unknown_scriptId_counterexample :
    (ccC1.AnalyzePolicy pid1).PolicyViolated = false ∧
      (AnalyzePolicyClaimC1 ccC1 pid1).PolicyViolated = true := by
  decide

/-- C1 (amended): the primary check selects the first will-be-sent event, in
log order, with a non-nil initiator stack trace, eventId greater than the
tainting event's, and an effective frame list (the parent stack's frames when
the immediate list is empty) not fully trusted under the event's embedded
PolicyState — where, unlike the stack-trust predicate, a frame whose scriptId
maps to no known trust group is skipped and only a frame resolving to an
untrusted group makes the stack untrusted — and copies its resource type,
initiator type, request URL and stack script ids into the analysis. -/
theorem primaryCheck_first_match :
    (∀ (taintingEventId : Int) (pa : PolicyAnalysis)
        (l : List NetworkRequestWillBeSentEvent),
      primaryCheck taintingEventId pa l =
        match l.find? (primaryCandidate taintingEventId) with
        | some e => primaryHit pa e
        | none => (pa, 0))
    ∧ ∀ (ps : PolicyState) (cfv : List CallFrame),
        primaryStackTrusted ps cfv =
          cfv.all (fun cf =>
            match ps.TrustGroupStateForScriptId cf.ScriptId with
            | some tgs => tgs.Trusted
            | none => true) := by
  constructor
  · intro taintingEventId pa l
    induction l with
    | nil => rfl
    | cons e rest ih =>
      simp only [primaryCheck, List.find?]
      cases hI : e.Initiator with
      | none => simpa [primaryCandidate, hI] using ih
      | some ini =>
        cases hS : ini.StackTrace with
        | none => simpa [primaryCandidate, hI, hS] using ih
        | some st =>
          by_cases hid : e.EventId > taintingEventId
          · by_cases htr :
                primaryStackTrusted e.PolicyState (effectiveCallFrames st) = true
            · simpa [primaryCandidate, hI, hS, hid, htr] using ih
            · simp [primaryCandidate, hI, hS, hid, htr, primaryHit,
                initiatorTypeOf, effectiveStackScriptIds,
                Bool.not_eq_true] at *
          · simpa [primaryCandidate, hI, hS, hid] using ih
  · intro ps cfv
    simpa using primaryFold_eq_all ps cfv true

/-! ## Claim C3 -/

/-- C3 counterexample: in `ccC3` the `exfiltration_probe` at eventId 5 has an
empty (hence fully trusted) scriptId stack; tainting is at eventId 3 and no
other violation exists. As the claim states it the probe supersedes the
(empty) result, but `AnalyzePolicy` reports no violation: the probe check
also requires the probe's own stack to be untrusted. -/
theorem probeCheck_trusted_probe_counterexample :
    (ccC3.AnalyzePolicy pid3).PolicyViolated = false ∧
      (AnalyzePolicyClaimC3 ccC3 pid3).PolicyViolated = true := by
  decide

/-- C3 (amended): among the `exfiltration_`-prefixed APIAccessEvents of the
policy *whose call stack is not fully trusted under their embedded
PolicyState*, the first with eventId greater than the tainting event's that
either occurs with no violation found yet or has a smaller eventId than the
violation already found supersedes the result (resource type `Document`,
initiator `script`); in particular, in scenario D — tainting at eventId 3, an
untrusted probe at eventId 5, a network-request violation at eventId 8 — the
probe at eventId 5 wins. -/
theorem probeCheck_first_match_and_scenarioD :
    (∀ (taintingEventId : Int) (pa : PolicyAnalysis) (exfiltrationEventId : Int)
        (l : List APIAccessEvent),
      probeCheck taintingEventId pa exfiltrationEventId l =
        match l.find? (probeCandidate taintingEventId pa exfiltrationEventId) with
        | some e => probeHit pa e
        | none => (pa, exfiltrationEventId))
    ∧ ccD.AnalyzePolicy pidD =
        { PolicyId := pidD, Description := docOfD, PolicyViolated := true,
          TaintingAPIName := nameGetCookie, ReqResourceType := docResourceType,
          ReqURL := urlHttpbinGet, ReqInitiator := scriptInitiatorType,
          ReqStackScripts := [sidS1] } := by
  constructor
  · intro taintingEventId pa exfiltrationEventId l
    induction l with
    | nil => rfl
    | cons e rest ih =>
      simp only [probeCheck, List.find?]
      by_cases hpre : strHasPre exfilPre e.APIName = true
      · by_cases htr : e.PolicyState.StackIsTrusted e.ScriptIdStack = true
        · simpa [probeCandidate, hpre, htr] using ih
        · rw [Bool.not_eq_true] at htr
          by_cases hc : e.EventId > taintingEventId ∧
              (pa.PolicyViolated = false ∨ e.EventId < exfiltrationEventId)
          · have hcand : probeCandidate taintingEventId pa exfiltrationEventId e = true := by
              rcases hc with ⟨h1, h2⟩
              rcases h2 with h2 | h2 <;> simp [probeCandidate, hpre, htr, h1, h2]
            simp [hpre, htr, hc, hcand, probeHit]
          · have hcand : probeCandidate taintingEventId pa exfiltrationEventId e = false := by
              rw [not_and_or, not_or] at hc
              rcases hc with h | h
              · simp [probeCandidate, h]
              · have h1 : pa.PolicyViolated = true := by
                  cases hb : pa.PolicyViolated
                  · exact absurd hb h.1
                  · rfl
                simp [probeCandidate, hpre, htr, h1, h.2]
            simpa [hpre, htr, hc, hcand] using ih
      · simpa [probeCandidate, hpre] using ih
  · decide

/-! ## Claim C4 -/

/-- C4 counterexample: in `ccC4` the policy under analysis is the only policy
id; its own first will-be-sent event (eventId 2, unknown initiator scriptId,
skipped by the primary check) supersedes the empty result in the cross-target
scan, so `AnalyzePolicy` reports a violation — while under the claim's
wording, which considers only *other* policies, no violation would be
reported. -/
theorem crossTargetCheck_own_policy_counterexample :
    (ccC4.AnalyzePolicy pid4).PolicyViolated = true ∧
      (AnalyzePolicyClaimC4 ccC4 pid4).PolicyViolated = false ∧
      ccC4.policyIds = [pid4] := by
  refine ⟨by decide, by decide, rfl⟩

/-- C4 (amended): the cross-target check scans *every* policy id in the
client's list — including, possibly, the policy being analyzed — and the
first id whose first NetworkRequestWillBeSentEvent has eventId past the
tainting event's, is earlier (by eventId) than any violation found so far,
and has a non-nil initiator call stack not fully trusted against the
triggering policy's latest known PolicyState (the one embedded in its last
APIAccessEvent) supersedes the result, its fields copied into the analysis. -/
theorem crossTargetCheck_first_match (cc : ChromeClient) (taintingEventId : Int)
    (apiLogs : List APIAccessEvent) (pa : PolicyAnalysis) (exfiltrationEventId : Int)
    (pids : List String) :
    crossTargetCheck cc taintingEventId apiLogs pa exfiltrationEventId pids =
      match pids.find? (crossCandidate cc taintingEventId apiLogs pa exfiltrationEventId) with
      | some q => crossHit cc pa q
      | none => (pa, exfiltrationEventId) := by
  induction pids with
  | nil => rfl
  | cons q rest ih =>
    simp only [crossTargetCheck, List.find?]
    cases hL : cc.NetworkRequestWillBeSentLogs q with
    | nil => simpa [crossCandidate, hL] using ih
    | cons e es =>
      cases hI : e.Initiator with
      | none => simpa [crossCandidate, hL, hI] using ih
      | some ini =>
        cases hS : ini.StackTrace with
        | none => simpa [crossCandidate, hL, hI, hS] using ih
        | some st =>
          by_cases hc : e.EventId > taintingEventId ∧
              (pa.PolicyViolated = false ∨ e.EventId < exfiltrationEventId)
          · cases hA : apiLogs.getLast? with
            | none => simpa [crossCandidate, hL, hI, hS, hc, hA] using ih
            | some lastApi =>
              by_cases htr :
                  crossStackTrusted lastApi.PolicyState (effectiveCallFrames st) = true
              · simpa [crossCandidate, hL, hI, hS, hc, hA, htr] using ih
              · rw [Bool.not_eq_true] at htr
                have hcand : crossCandidate cc taintingEventId apiLogs pa
                    exfiltrationEventId q = true := by
                  rcases hc with ⟨h1, h2⟩
                  rcases h2 with h2 | h2 <;>
                    simp [crossCandidate, hL, hI, hS, hA, htr, h1, h2]
                simp [hL, hI, hS, hc, hA, htr, hcand, crossHit,
                  initiatorTypeOf, effectiveStackScriptIds]
          · have hcand : crossCandidate cc taintingEventId apiLogs pa
                exfiltrationEventId q = false := by
              rw [not_and_or, not_or] at hc
              rcases hc with h | h
              · simp [crossCandidate, hL, hI, hS, h]
              · have h1 : pa.PolicyViolated = true := by
                  cases hb : pa.PolicyViolated
                  · exact absurd hb h.1
                  · rfl
                simp [crossCandidate, hL, hI, hS, h1, h.2]
            simpa [hL, hI, hS, hc, hcand] using ih

/-! ## Claim C5 helper lemmas -/

/-- `setGroupAt` rewrites exactly the targeted position. -/
theorem setGroupAt_get (f : TrustGroup → TrustGroup) (i : Nat) (l : List TrustGroup)
    (j : Nat) :
    (setGroupAt f i l).get? j = if i = j then (l.get? j).map f else l.get? j := by
  induction l generalizing i j with
  | nil => cases i <;> simp [setGroupAt]
  | cons x xs ih =>
    cases i with
    | zero => cases j <;> simp [setGroupAt]
    | succ n =>
      cases j with
      | zero => simp [setGroupAt]
      | succ m => simpa [setGroupAt] using ih n m

/-- `findGroupIdx` fails exactly when no group satisfies the predicate. -/
theorem findGroupIdx_eq_none_iff (pred : TrustGroup → Bool) (l : List TrustGroup) :
    findGroupIdx pred l = none ↔ ∀ x ∈ l, pred x = false := by
  induction l with
  | nil => simp [findGroupIdx]
  | cons x xs ih =>
    by_cases h : pred x = true
    · simp [findGroupIdx, h]
    · rw [Bool.not_eq_true] at h
      simp [findGroupIdx, h, Option.map_eq_none', ih]

/-- `findGroupIdx` finds the first satisfying group, with its position. -/
theorem findGroupIdx_eq_some_iff (pred : TrustGroup → Bool) (l : List TrustGroup)
    (i : Nat) (g : TrustGroup) :
    findGroupIdx pred l = some (i, g) ↔
      l.get? i = some g ∧ pred g = true ∧
        ∀ j, j < i → ∀ x, l.get? j = some x → pred x = false := by
  induction l generalizing i with
  | nil => simp [findGroupIdx]
  | cons x xs ih =>
    by_cases h : pred x = true
    · simp only [findGroupIdx, h, if_true]
      constructor
      · intro heq
        obtain ⟨hi, hg⟩ : 0 = i ∧ x = g := by
          have := Option.some.inj heq
          exact ⟨congrArg Prod.fst this, congrArg Prod.snd this⟩
        subst hi; subst hg
        exact ⟨rfl, h, fun j hj => absurd hj (Nat.not_lt_zero j)⟩
      · rintro ⟨hget, hpred, hmin⟩
        cases i with
        | zero =>
          simp only [List.get?] at hget
          exact congrArg some (congrArg (Prod.mk 0) (Option.some.inj hget))
        | succ n =>
          have := hmin 0 (Nat.succ_pos n) x (by simp)
          exact absurd h (by simp [this])
    · rw [Bool.not_eq_true] at h
      simp only [findGroupIdx, h, if_false, Bool.false_eq_true]
      cases i with
      | zero =>
        constructor
        · intro heq
          obtain ⟨q, hq, heq2⟩ := Option.map_eq_some'.mp heq
          exact absurd (congrArg Prod.fst heq2) (Nat.succ_ne_zero q.fst)
        · rintro ⟨hget, hpred, _⟩
          simp only [List.get?] at hget
          rw [Option.some.inj hget] at h
          exact absurd hpred (by simp [h])
      | succ n =>
        rw [show ((findGroupIdx pred xs).map fun p => (p.fst + 1, p.snd)) =
              some (n + 1, g) ↔ findGroupIdx pred xs = some (n, g) from ?_]
        · rw [ih n]
          constructor
          · rintro ⟨hget, hpred, hmin⟩
            refine ⟨hget, hpred, fun j hj y hy => ?_⟩
            cases j with
            | zero =>
              simp only [List.get?] at hy
              rw [← Option.some.inj hy]
              exact h
            | succ m => exact hmin m (Nat.lt_of_succ_lt_succ hj) y hy
          · rintro ⟨hget, hpred, hmin⟩
            exact ⟨hget, hpred, fun j hj y hy =>
              hmin (j + 1) (Nat.succ_lt_succ hj) y hy⟩
        · constructor
          · intro heq
            obtain ⟨q, hq, heq2⟩ := Option.map_eq_some'.mp heq
            obtain ⟨h1, h2⟩ : q.fst + 1 = n + 1 ∧ q.snd = g :=
              ⟨congrArg Prod.fst heq2, congrArg Prod.snd heq2⟩
            have h3 : q.fst = n := Nat.succ.inj h1
            rw [hq]
            exact congrArg some (Prod.ext h3 h2)
          · intro heq
            rw [heq]
            rfl

/-- When no frame's scriptId belongs to a known untrusted group, the remote
inheritance walk finds nothing. -/
theorem registerRemoteViaStack_eq_none (p : Policy) (sid url : String)
    (cfv : List CallFrame)
    (h : ∀ cf ∈ cfv, resolvesUntrusted p cf.ScriptId = false) :
    registerRemoteViaStack p sid url cfv = none := by
  induction cfv with
  | nil => rfl
  | cons cf rest ih =>
    have hcf := h cf (List.mem_cons_self cf rest)
    have ihr := ih (fun c hc => h c (List.mem_cons_of_mem cf hc))
    simp only [registerRemoteViaStack]
    cases hq : p.TrustGroupIdxForScriptId cf.ScriptId with
    | none => exact ihr
    | some q =>
      have htr : q.snd.Trusted = true := by
        simp only [resolvesUntrusted, Policy.TrustGroupForScriptId, hq,
          Option.map_some'] at hcf
        cases hb : q.snd.Trusted
        · rw [hb] at hcf
          exact absurd hcf (by simp)
        · rfl
      simp [htr, ihr]

/-- When no frame's scriptId belongs to a known untrusted group, the inline
inheritance walk finds nothing. -/
theorem registerInlineViaStack_eq_none (p : Policy) (sid hash : String)
    (cfv : List CallFrame)
    (h : ∀ cf ∈ cfv, resolvesUntrusted p cf.ScriptId = false) :
    registerInlineViaStack p sid hash cfv = none := by
  induction cfv with
  | nil => rfl
  | cons cf rest ih =>
    have hcf := h cf (List.mem_cons_self cf rest)
    have ihr := ih (fun c hc => h c (List.mem_cons_of_mem cf hc))
    simp only [registerInlineViaStack]
    cases hq : p.TrustGroupIdxForScriptId cf.ScriptId with
    | none => exact ihr
    | some q =>
      have htr : q.snd.Trusted = true := by
        simp only [resolvesUntrusted, Policy.TrustGroupForScriptId, hq,
          Option.map_some'] at hcf
        cases hb : q.snd.Trusted
        · rw [hb] at hcf
          exact absurd hcf (by simp)
        · rfl
      simp [htr, ihr]

/-- The first frame resolving to an untrusted group receives the remote
script into that group, which is returned. -/
theorem registerRemoteViaStack_eq_some (p : Policy) (sid url : String)
    (pre : List CallFrame) (cf : CallFrame) (post : List CallFrame)
    (i : Nat) (tg : TrustGroup)
    (hpre : ∀ c ∈ pre, resolvesUntrusted p c.ScriptId = false)
    (hidx : p.TrustGroupIdxForScriptId cf.ScriptId = some (i, tg))
    (htr : tg.Trusted = false) :
    registerRemoteViaStack p sid url (pre ++ cf :: post) =
      some ({ p with trustGroups := setGroupAt (fun g => g.AddRemoteScript sid url) i p.trustGroups }, i) := by
  induction pre with
  | nil => simp [registerRemoteViaStack, hidx, htr]
  | cons c cs ih =>
    have hc := hpre c (List.mem_cons_self c cs)
    have ihr := ih (fun x hx => hpre x (List.mem_cons_of_mem c hx))
    simp only [List.cons_append, registerRemoteViaStack]
    cases hq : p.TrustGroupIdxForScriptId c.ScriptId with
    | none => exact ihr
    | some q =>
      have hqt : q.snd.Trusted = true := by
        simp only [resolvesUntrusted, Policy.TrustGroupForScriptId, hq,
          Option.map_some'] at hc
        cases hb : q.snd.Trusted
        · rw [hb] at hc
          exact absurd hc (by simp)
        · rfl
      simp [hqt, ihr]

/-- The first frame resolving to an untrusted group receives the inline
script into that group, which is returned. -/
theorem registerInlineViaStack_eq_some (p : Policy) (sid hash : String)
    (pre : List CallFrame) (cf : CallFrame) (post : List CallFrame)
    (i : Nat) (tg : TrustGroup)
    (hpre : ∀ c ∈ pre, resolvesUntrusted p c.ScriptId = false)
    (hidx : p.TrustGroupIdxForScriptId cf.ScriptId = some (i, tg))
    (htr : tg.Trusted = false) :
    registerInlineViaStack p sid hash (pre ++ cf :: post) =
      some ({ p with trustGroups := setGroupAt (fun g => g.AddInlineScript sid hash) i p.trustGroups }, i) := by
  induction pre with
  | nil => simp [registerInlineViaStack, hidx, htr]
  | cons c cs ih =>
    have hc := hpre c (List.mem_cons_self c cs)
    have ihr := ih (fun x hx => hpre x (List.mem_cons_of_mem c hx))
    simp only [List.cons_append, registerInlineViaStack]
    cases hq : p.TrustGroupIdxForScriptId c.ScriptId with
    | none => exact ihr
    | some q =>
      have hqt : q.snd.Trusted = true := by
        simp only [resolvesUntrusted, Policy.TrustGroupForScriptId, hq,
          Option.map_some'] at hc
        cases hb : q.snd.Trusted
        · rw [hb] at hc
          exact absurd hc (by simp)
        · rfl
      simp [hqt, ihr]

/-- The content fallback's returned position is the first accepting group. -/
theorem registerRemoteViaContent_snd_iff (parseURL : URLParser) (p : Policy)
    (sid url : String) (i : Nat) :
    (registerRemoteViaContent parseURL p sid url).snd = some i ↔
      ∃ tg, p.trustGroups.get? i = some tg ∧
        tg.ContainsRemoteScript parseURL sid url = true ∧
        ∀ j, j < i → ∀ tg', p.trustGroups.get? j = some tg' →
          tg'.ContainsRemoteScript parseURL sid url = false := by
  unfold registerRemoteViaContent
  cases hf : findGroupIdx (fun tg => tg.ContainsRemoteScript parseURL sid url)
      p.trustGroups with
  | none =>
    rw [findGroupIdx_eq_none_iff] at hf
    simp only []
    constructor
    · intro h
      exact absurd h (by simp)
    · rintro ⟨tg, hget, hc, _⟩
      have := hf tg (List.get?_mem hget)
      rw [this] at hc
      exact absurd hc (by simp)
  | some q =>
    have hq := (findGroupIdx_eq_some_iff _ _ q.fst q.snd).mp (by rw [hf])
    simp only []
    constructor
    · intro h
      have hi : q.fst = i := Option.some.inj h
      exact ⟨q.snd, hi ▸ hq.1, hq.2.1, hi ▸ hq.2.2⟩
    · rintro ⟨tg, hget, hc, hmin⟩
      rcases Nat.lt_trichotomy i q.fst with hlt | heq | hgt
      · have := hq.2.2 i hlt tg hget
        rw [this] at hc
        exact absurd hc (by simp)
      · exact congrArg some heq.symm
      · have := hmin q.fst hgt q.snd hq.1
        rw [this] at hq
        exact absurd hq.2.1 (by simp)

/-- The inline content fallback's returned position is the first accepting
group. -/
theorem registerInlineViaContent_snd_iff (p : Policy) (sid hash : String) (i : Nat) :
    (registerInlineViaContent p sid hash).snd = some i ↔
      ∃ tg, p.trustGroups.get? i = some tg ∧
        tg.ContainsInlineScript sid hash = true ∧
        ∀ j, j < i → ∀ tg', p.trustGroups.get? j = some tg' →
          tg'.ContainsInlineScript sid hash = false := by
  unfold registerInlineViaContent
  cases hf : findGroupIdx (fun tg => tg.ContainsInlineScript sid hash) p.trustGroups with
  | none =>
    rw [findGroupIdx_eq_none_iff] at hf
    simp only []
    constructor
    · intro h
      exact absurd h (by simp)
    · rintro ⟨tg, hget, hc, _⟩
      have := hf tg (List.get?_mem hget)
      rw [this] at hc
      exact absurd hc (by simp)
  | some q =>
    have hq := (findGroupIdx_eq_some_iff _ _ q.fst q.snd).mp (by rw [hf])
    simp only []
    constructor
    · intro h
      have hi : q.fst = i := Option.some.inj h
      exact ⟨q.snd, hi ▸ hq.1, hq.2.1, hi ▸ hq.2.2⟩
    · rintro ⟨tg, hget, hc, hmin⟩
      rcases Nat.lt_trichotomy i q.fst with hlt | heq | hgt
      · have := hq.2.2 i hlt tg hget
        rw [this] at hc
        exact absurd hc (by simp)
      · exact congrArg some heq.symm
      · have := hmin q.fst hgt q.snd hq.1
        rw [this] at hq
        exact absurd hq.2.1 (by simp)

/-! ## Claim C5 -/

/-- C5 counterexample: registering script `b` with a stack whose immediate
frame list is empty and whose async parent segment's only frame is script `a`
(registered in the untrusted group, position 1): `RegisterRemoteScript` does
not inherit — it walks only the immediate frame list — and the content test
places `b` in the trusted Universal group at position 0; under the claim's
walk (async parents included) it would inherit the untrusted group at
position 1. -/
theorem registerRemoteScript_async_parent_counterexample :
    (pC5.RegisterRemoteScript parseNone sidB urlOfB (some stC5)).snd = some 0 ∧
      (RegisterRemoteScriptClaimC5 parseNone pC5 sidB urlOfB (some stC5)).snd = some 1 ∧
      (pC5.trustGroups.get? 0).map (fun g => g.Trusted) = some true ∧
      (pC5.trustGroups.get? 1).map (fun g => g.Trusted) = some false := by
  refine ⟨by decide, by decide, rfl, rfl⟩

/-- C5 (amended): for every registration with a non-null stack trace the
inheritance walk ranges over the *immediate* frame list only (async parent
segments are not consulted): if no immediate frame's scriptId belongs to a
known untrusted group, the result is that of a stackless registration; the
first frame that does resolve to an untrusted group receives the script into
that same group, returned immediately and independently of every
content-based membership test; otherwise the first group accepting by
content receives it; if no group accepts, nil is returned, the policy is
unchanged, and a later `TrustGroupForScriptId` on a fresh id still returns
nil. Both `RegisterRemoteScript` and `RegisterInlineScript` behave this way. -/
theorem registerScript_inheritance_characterization :
    (∀ (parseURL : URLParser) (p : Policy) (sid url : String) (stv : StackTrace),
      (∀ cf ∈ stv.CallFrames, resolvesUntrusted p cf.ScriptId = false) →
      p.RegisterRemoteScript parseURL sid url (some stv) =
        p.RegisterRemoteScript parseURL sid url none)
    ∧ (∀ (parseURL : URLParser) (p : Policy) (sid url : String) (stv : StackTrace)
        (pre : List CallFrame) (cf : CallFrame) (post : List CallFrame) (i : Nat)
        (tg : TrustGroup),
      stv.CallFrames = pre ++ cf :: post →
      (∀ c ∈ pre, resolvesUntrusted p c.ScriptId = false) →
      p.TrustGroupIdxForScriptId cf.ScriptId = some (i, tg) →
      tg.Trusted = false →
      (p.RegisterRemoteScript parseURL sid url (some stv)).snd = some i ∧
        ((p.RegisterRemoteScript parseURL sid url (some stv)).fst.trustGroups.get? i).map
            (fun g => g.RemoteScripts) =
          some (tg.RemoteScripts ++ [{ ScriptId := sid, URL := url }]) ∧
        ∀ parseURL2 : URLParser, p.RegisterRemoteScript parseURL2 sid url (some stv) =
          p.RegisterRemoteScript parseURL sid url (some stv))
    ∧ (∀ (parseURL : URLParser) (p : Policy) (sid url : String) (i : Nat),
      (p.RegisterRemoteScript parseURL sid url none).snd = some i ↔
        ∃ tg, p.trustGroups.get? i = some tg ∧
          tg.ContainsRemoteScript parseURL sid url = true ∧
          ∀ j, j < i → ∀ tg', p.trustGroups.get? j = some tg' →
            tg'.ContainsRemoteScript parseURL sid url = false)
    ∧ (∀ (parseURL : URLParser) (p : Policy) (sid url : String),
      (∀ tg ∈ p.trustGroups, tg.ContainsRemoteScript parseURL sid url = false) →
      p.RegisterRemoteScript parseURL sid url none = (p, none) ∧
        (p.TrustGroupForScriptId sid = none →
          (p.RegisterRemoteScript parseURL sid url none).fst.TrustGroupForScriptId sid =
            none))
    ∧ (∀ (p : Policy) (sid hash : String) (stv : StackTrace),
      (∀ cf ∈ stv.CallFrames, resolvesUntrusted p cf.ScriptId = false) →
      p.RegisterInlineScript sid hash (some stv) = p.RegisterInlineScript sid hash none)
    ∧ (∀ (p : Policy) (sid hash : String) (stv : StackTrace)
        (pre : List CallFrame) (cf : CallFrame) (post : List CallFrame) (i : Nat)
        (tg : TrustGroup),
      stv.CallFrames = pre ++ cf :: post →
      (∀ c ∈ pre, resolvesUntrusted p c.ScriptId = false) →
      p.TrustGroupIdxForScriptId cf.ScriptId = some (i, tg) →
      tg.Trusted = false →
      (p.RegisterInlineScript sid hash (some stv)).snd = some i)
    ∧ (∀ (p : Policy) (sid hash : String) (i : Nat),
      (p.RegisterInlineScript sid hash none).snd = some i ↔
        ∃ tg, p.trustGroups.get? i = some tg ∧ tg.ContainsInlineScript sid hash = true ∧
          ∀ j, j < i → ∀ tg', p.trustGroups.get? j = some tg' →
            tg'.ContainsInlineScript sid hash = false)
    ∧ ∀ (p : Policy) (sid hash : String),
      (∀ tg ∈ p.trustGroups, tg.ContainsInlineScript sid hash = false) →
      p.RegisterInlineScript sid hash none = (p, none) := by
  refine ⟨?_, ?_, ?_, ?_, ?_, ?_, ?_, ?_⟩
  · intro parseURL p sid url stv h
    simp [Policy.RegisterRemoteScript, registerRemoteViaStack_eq_none p sid url
      stv.CallFrames h]
  · intro parseURL p sid url stv pre cf post i tg hcf hpre hidx htr
    have hvs := registerRemoteViaStack_eq_some p sid url pre cf post i tg hpre hidx htr
    have hreg : p.RegisterRemoteScript parseURL sid url (some stv) =
        ({ p with trustGroups :=
          setGroupAt (fun g => g.AddRemoteScript sid url) i p.trustGroups }, some i) := by
      simp [Policy.RegisterRemoteScript, hcf, hvs]
    have hget : p.trustGroups.get? i = some tg :=
      ((findGroupIdx_eq_some_iff _ _ i tg).mp hidx).1
    refine ⟨by rw [hreg], ?_, ?_⟩
    · rw [hreg]
      simp only [setGroupAt_get, if_pos rfl, hget, Option.map_some']
      simp [TrustGroup.AddRemoteScript, TrustGroup.RemoteScripts,
        ScriptSet.AddRemoteScript, ScriptSet.RemoteScriptsAcc]
    · intro parseURL2
      rw [hreg]
      simp [Policy.RegisterRemoteScript, hcf, hvs]
  · intro parseURL p sid url i
    exact registerRemoteViaContent_snd_iff parseURL p sid url i
  · intro parseURL p sid url h
    have hf : findGroupIdx (fun tg => tg.ContainsRemoteScript parseURL sid url)
        p.trustGroups = none := (findGroupIdx_eq_none_iff _ _).mpr h
    have hreg : p.RegisterRemoteScript parseURL sid url none = (p, none) := by
      simp [Policy.RegisterRemoteScript, registerRemoteViaContent, hf]
    exact ⟨hreg, fun hfresh => by rw [hreg]; exact hfresh⟩
  · intro p sid hash stv h
    simp [Policy.RegisterInlineScript, registerInlineViaStack_eq_none p sid hash
      stv.CallFrames h]
  · intro p sid hash stv pre cf post i tg hcf hpre hidx htr
    have hvs := registerInlineViaStack_eq_some p sid hash pre cf post i tg hpre hidx htr
    simp [Policy.RegisterInlineScript, hcf, hvs]
  · intro p sid hash i
    exact registerInlineViaContent_snd_iff p sid hash i
  · intro p sid hash h
    have hf : findGroupIdx (fun tg => tg.ContainsInlineScript sid hash)
        p.trustGroups = none := (findGroupIdx_eq_none_iff _ _).mpr h
    simp [Policy.RegisterInlineScript, registerInlineViaContent, hf]

/-- C5 witness: the characterization applied to the concrete policy `pC5` —
a no-inherit stack falls back to the content test, and a stack whose first
frame is the untrusted script `a` inherits the untrusted group at position 1. -/
theorem registerScript_inheritance_witness :
    pC5.RegisterRemoteScript parseNone sidB urlOfB (some stW5b) =
      pC5.RegisterRemoteScript parseNone sidB urlOfB none ∧
    (pC5.RegisterRemoteScript parseNone sidB urlOfB (some stW5)).snd = some 1 := by
  constructor
  · exact registerScript_inheritance_characterization.1 parseNone pC5 sidB urlOfB stW5b
      (by decide)
  · exact (registerScript_inheritance_characterization.2.1 parseNone pC5 sidB urlOfB stW5
      [] (mkCF sidA) [] 1 tgC5Untrusted (by decide) (by decide) rfl rfl).1

/-! ## Claim C6 -/

/-- C6: for every Hostname-shaped policy (a trusted Hostname group followed
by an untrusted Universal group) and every remote-script registration that
does not inherit a group via its stack, the script lands in the trusted
Hostname group (position 0) exactly when its URL parses and its
`scheme://host` equals one of the configured origins, and otherwise lands in
the untrusted Universal group (position 1); an inline-script registration is
always accepted by the Hostname set. -/
theorem hostnamePolicy_classification (parseURL : URLParser) (p : Policy)
    (hosts : List String) (tg0 tg1 : TrustGroup)
    (hshape : p.trustGroups = [tg0, tg1])
    (hk0 : tg0.scriptSet.kind = .hostname hosts) (_ht0 : tg0.Trusted = true)
    (hk1 : tg1.scriptSet.kind = .universal) (_ht1 : tg1.Trusted = false)
    (sid url : String) (st : Option StackTrace)
    (hst : ∀ stv, st = some stv → ∀ cf ∈ stv.CallFrames,
      resolvesUntrusted p cf.ScriptId = false) :
    ((p.RegisterRemoteScript parseURL sid url st).snd = some 0 ↔
      ∃ u, parseURL url = some u ∧ (u.Scheme ++ "://" ++ u.Host) ∈ hosts)
    ∧ ((¬ ∃ u, parseURL url = some u ∧ (u.Scheme ++ "://" ++ u.Host) ∈ hosts) →
      (p.RegisterRemoteScript parseURL sid url st).snd = some 1)
    ∧ ∀ hash, (p.RegisterInlineScript sid hash st).snd = some 0 := by
  have hcont0 : tg0.ContainsRemoteScript parseURL sid url = true ↔
      ∃ u, parseURL url = some u ∧ (u.Scheme ++ "://" ++ u.Host) ∈ hosts := by
    simp only [TrustGroup.ContainsRemoteScript, ScriptSet.ContainsRemoteScript, hk0]
    cases hp : parseURL url with
    | none => simp
    | some u =>
      simp only [List.any_eq_true, beq_iff_eq, Option.some.injEq]
      constructor
      · rintro ⟨h, hh, he⟩
        exact ⟨u, rfl, he ▸ hh⟩
      · rintro ⟨u2, hu2, hmem⟩
        exact ⟨u2.Scheme ++ "://" ++ u2.Host, hu2 ▸ hmem, by rw [hu2]⟩
  have hcont1 : tg1.ContainsRemoteScript parseURL sid url = true := by
    simp [TrustGroup.ContainsRemoteScript, ScriptSet.ContainsRemoteScript, hk1]
  have hred : p.RegisterRemoteScript parseURL sid url st =
      registerRemoteViaContent parseURL p sid url := by
    cases st with
    | none => rfl
    | some stv =>
      simp [Policy.RegisterRemoteScript,
        registerRemoteViaStack_eq_none p sid url stv.CallFrames (hst stv rfl)]
  have hredI : ∀ hash, p.RegisterInlineScript sid hash st =
      registerInlineViaContent p sid hash := by
    intro hash
    cases st with
    | none => rfl
    | some stv =>
      simp [Policy.RegisterInlineScript,
        registerInlineViaStack_eq_none p sid hash stv.CallFrames (hst stv rfl)]
  refine ⟨?_, ?_, ?_⟩
  · rw [hred]
    unfold registerRemoteViaContent
    rw [hshape]
    by_cases hP : ∃ u, parseURL url = some u ∧ (u.Scheme ++ "://" ++ u.Host) ∈ hosts
    · have h0 := hcont0.mpr hP
      simp [findGroupIdx, h0, hP]
    · have h0 : tg0.ContainsRemoteScript parseURL sid url = false := by
        cases hb : tg0.ContainsRemoteScript parseURL sid url
        · rfl
        · exact absurd (hcont0.mp hb) hP
      simp [findGroupIdx, h0, hcont1, hP]
  · intro hP
    rw [hred]
    unfold registerRemoteViaContent
    rw [hshape]
    have h0 : tg0.ContainsRemoteScript parseURL sid url = false := by
      cases hb : tg0.ContainsRemoteScript parseURL sid url
      · rfl
      · exact absurd (hcont0.mp hb) hP
    simp [findGroupIdx, h0, hcont1]
  · intro hash
    rw [hredI hash]
    unfold registerInlineViaContent
    rw [hshape]
    have h0 : tg0.ContainsInlineScript sid hash = true := by
      simp [TrustGroup.ContainsInlineScript, ScriptSet.ContainsInlineScript, hk0]
    simp [findGroupIdx, h0]

/-- C6 witness: the Hostname policy `pC6` (trusted origin `https://a.example`)
classifies a remote script from that origin into the trusted group, a remote
script from `https://b.example` into the untrusted Universal group, and an
inline script into the Hostname group. -/
theorem hostnamePolicy_classification_witness :
    (pC6.RegisterRemoteScript parseC6 sidR1 urlAjs none).snd = some 0 ∧
      (pC6.RegisterRemoteScript parseC6 sidR2 urlBjs none).snd = some 1 ∧
      (pC6.RegisterInlineScript sidR1 hashH1 none).snd = some 0 := by
  refine ⟨?_, ?_, ?_⟩
  · exact (hostnamePolicy_classification parseC6 pC6 [originA] tgC6a tgC6b rfl rfl rfl
      rfl rfl sidR1 urlAjs none (fun stv h => nomatch h)).1.mpr
      ⟨parsedA, rfl, by decide⟩
  · refine (hostnamePolicy_classification parseC6 pC6 [originA] tgC6a tgC6b rfl rfl rfl
      rfl rfl sidR2 urlBjs none (fun stv h => nomatch h)).2.1 ?_
    rintro ⟨u, hu, hmem⟩
    have h2 : parseC6 urlBjs = some parsedB := rfl
    rw [h2] at hu
    rw [← Option.some.inj hu] at hmem
    revert hmem
    decide
  · exact (hostnamePolicy_classification parseC6 pC6 [originA] tgC6a tgC6b rfl rfl rfl
      rfl rfl sidR1 urlAjs none (fun stv h => nomatch h)).2.2 hashH1

/-! ## Claim C7 -/

/-- One `LogEvent` call on a well-kinded event: the event is appended with the
current counter as its eventId (whatever id the caller pre-set is
overwritten), and the counter advances by one. -/
theorem logEvent_known_ok (cc : ChromeClient) (e : Event) (h : e.isKnownKind = true) :
    ∃ ev : Event,
      cc.LogEvent e =
        .ok { cc with eventLog := cc.eventLog ++ [ev], nextEventId := cc.nextEventId + 1 } ∧
      ev.eventId = cc.nextEventId := by
  cases e with
  | networkRequestIntercepted v => exact ⟨_, rfl, rfl⟩
  | networkRequestWillBeSent v => exact ⟨_, rfl, rfl⟩
  | apiAccess v => exact ⟨_, rfl, rfl⟩
  | debuggerScriptParsed v => exact ⟨_, rfl, rfl⟩
  | pageLifecycle v => exact ⟨_, rfl, rfl⟩
  | unknownKind d => exact absurd h (by simp [Event.isKnownKind])

/-- Peeling one step off an integer-valued index range. -/
theorem intRange_succ (c : Int) (n : Nat) :
    (List.range (n + 1)).map (fun i : Nat => c + (i : Int)) =
      c :: (List.range n).map (fun i : Nat => (c + 1) + (i : Int)) := by
  rw [List.range_succ_eq_map, List.map_cons, List.map_map]
  simp only [Nat.cast_zero, add_zero, List.cons.injEq, true_and]
  congr 1
  funext i
  simp only [Function.comp_apply]
  push_cast
  ring

/-- C7: `LogEvent` is the sole assigner of eventIds — a sequence of calls on
well-kinded events appends events whose stored ids are the consecutive values
of the counter, regardless of the ids the callers pre-set; an unknown event
kind is a fatal error that appends nothing; and from the initial client state
the stored ids are `0, 1, 2, …`, strictly increasing and hence unique. -/
theorem logEvent_consecutive_ids :
    (∀ (cc : ChromeClient) (es : List Event),
      (∀ e ∈ es, e.isKnownKind = true) →
      ∃ cc', cc.LogEvents es = .ok cc' ∧
        eventIdsOf cc'.eventLog =
          eventIdsOf cc.eventLog ++
            (List.range es.length).map (fun i : Nat => cc.nextEventId + (i : Int)) ∧
        cc'.nextEventId = cc.nextEventId + es.length ∧
        cc'.policyIds = cc.policyIds)
    ∧ (∀ (cc : ChromeClient) (d : String),
        cc.LogEvent (Event.unknownKind d) = .error badLogEventMsg ∧
        cc.LogEvents [Event.unknownKind d] = .error badLogEventMsg)
    ∧ ∀ (d : String) (es : List Event),
        (∀ e ∈ es, e.isKnownKind = true) →
        ∃ cc', (NewChromeClientState d).LogEvents es = .ok cc' ∧
          eventIdsOf cc'.eventLog = (List.range es.length).map (fun i : Nat => (i : Int)) ∧
          List.Pairwise (fun a b : Int => a < b) (eventIdsOf cc'.eventLog) := by
  have hmain : ∀ (es : List Event) (cc : ChromeClient),
      (∀ e ∈ es, e.isKnownKind = true) →
      ∃ cc', cc.LogEvents es = .ok cc' ∧
        eventIdsOf cc'.eventLog =
          eventIdsOf cc.eventLog ++
            (List.range es.length).map (fun i : Nat => cc.nextEventId + (i : Int)) ∧
        cc'.nextEventId = cc.nextEventId + es.length ∧
        cc'.policyIds = cc.policyIds := by
    intro es
    induction es with
    | nil =>
      intro cc _
      exact ⟨cc, rfl, by simp, by simp, rfl⟩
    | cons e rest ih =>
      intro cc h
      obtain ⟨ev, hlog, hid⟩ := logEvent_known_ok cc e (h e (List.mem_cons_self e rest))
      obtain ⟨cc', h1, h2, h3, h4⟩ :=
        ih { cc with eventLog := cc.eventLog ++ [ev], nextEventId := cc.nextEventId + 1 }
          (fun x hx => h x (List.mem_cons_of_mem e hx))
      refine ⟨cc', ?_, ?_, ?_, h4⟩
      · simp only [ChromeClient.LogEvents, hlog]
        exact h1
      · rw [h2]
        simp only [List.length_cons]
        rw [intRange_succ cc.nextEventId rest.length]
        simp [eventIdsOf, hid, List.append_assoc]
      · rw [h3]
        simp only [List.length_cons]
        push_cast
        ring
  refine ⟨fun cc es h => hmain es cc h, fun cc d => ⟨rfl, rfl⟩, ?_⟩
  intro d es h
  obtain ⟨cc', h1, h2, h3, h4⟩ := hmain es (NewChromeClientState d) h
  have h2' : eventIdsOf cc'.eventLog = (List.range es.length).map (fun i : Nat => (i : Int)) := by
    rw [h2]
    simp [NewChromeClientState, eventIdsOf]
  refine ⟨cc', h1, h2', ?_⟩
  rw [h2']
  exact (List.pairwise_lt_range es.length).map _ (fun {a b} hab => by exact_mod_cast hab)

/-- C7 witness: logging three concrete events (with arbitrary pre-set ids)
from the initial state yields stored ids `[0, 1, 2]`, strictly increasing. -/
theorem logEvent_consecutive_ids_witness :
    (∀ e ∈ esC7, e.isKnownKind = true) ∧
      ∃ cc', (NewChromeClientState logsDirW).LogEvents esC7 = .ok cc' ∧
        eventIdsOf cc'.eventLog = (List.range esC7.length).map (fun i : Nat => (i : Int)) ∧
        List.Pairwise (fun a b : Int => a < b) (eventIdsOf cc'.eventLog) :=
  ⟨by decide, logEvent_consecutive_ids.2.2 logsDirW esC7 (by decide)⟩

/-! ## Claim C8 -/

/-- `crossTargetCheck` reads the client only through its event log. -/
theorem crossTargetCheck_eq_of_eventLog (cc1 cc2 : ChromeClient)
    (hlog : cc1.eventLog = cc2.eventLog) :
    crossTargetCheck cc1 = crossTargetCheck cc2 := by
  funext tid apiLogs pa ex pids
  induction pids with
  | nil => rfl
  | cons q rest ih =>
    simp only [crossTargetCheck]
    have hw : cc1.NetworkRequestWillBeSentLogs q = cc2.NetworkRequestWillBeSentLogs q := by
      simp [ChromeClient.NetworkRequestWillBeSentLogs, hlog]
    rw [hw, ih]

/-- C8: `AnalyzePolicy` is deterministic in the event log and policy-id list —
two clients agreeing on those (whatever their counter or auxiliary state)
produce identical `PolicyAnalysis` values for every policy id. -/
theorem analyzePolicy_pure_function (cc1 cc2 : ChromeClient) (pid : String)
    (hlog : cc1.eventLog = cc2.eventLog) (hpids : cc1.policyIds = cc2.policyIds) :
    cc1.AnalyzePolicy pid = cc2.AnalyzePolicy pid := by
  have h1 : cc1.NetworkRequestWillBeSentLogs pid = cc2.NetworkRequestWillBeSentLogs pid := by
    simp [ChromeClient.NetworkRequestWillBeSentLogs, hlog]
  have h2 : cc1.APIAccessLogs pid = cc2.APIAccessLogs pid := by
    simp [ChromeClient.APIAccessLogs, hlog]
  unfold ChromeClient.AnalyzePolicy
  rw [h1, h2, crossTargetCheck_eq_of_eventLog cc1 cc2 hlog, hpids]

/-- C8 witness: two clients sharing the scenario-D log and policy ids but
differing in counter and auxiliary state analyze identically. -/
theorem analyzePolicy_pure_function_witness :
    ccC8a.AnalyzePolicy pidD = ccC8b.AnalyzePolicy pidD :=
  analyzePolicy_pure_function ccC8a ccC8b pidD rfl rfl

/-! ## Claim C10 -/

/-- C10: `debuggerPaused` reads the first call frame unconditionally on every
pause whose reason is not `EventListener`: with an empty frame list it faults
(out-of-range read of the first frame's scriptId) before the debugger is
resumed; under the precondition that such a pause carries at least one frame
(or the reason is `EventListener`) the handler completes and always resumes. -/
theorem debuggerPaused_first_frame_total_iff (t : Target) (p : PausedParams) :
    (p.reason ≠ eventListenerReason → p.callFrames = [] →
      t.debuggerPausedModel p = .error indexOutOfRangeMsg)
    ∧ ((p.reason = eventListenerReason ∨ p.callFrames ≠ []) →
      ∃ r, t.debuggerPausedModel p = .ok r ∧ r.resumed = true) := by
  constructor
  · intro hr hcf
    simp [Target.debuggerPausedModel, hr, hcf]
  · intro h
    by_cases hr : p.reason = eventListenerReason
    · simp [Target.debuggerPausedModel, hr]
    · rcases h with h | h
      · exact absurd h hr
      · cases hcf : p.callFrames with
        | nil => exact absurd hcf h
        | cons cf0 rest =>
          by_cases hinst : cf0.LocationScriptId = t.instrumentationScriptId
          · simp [Target.debuggerPausedModel, hr, hcf, hinst]
          · simp [Target.debuggerPausedModel, hr, hcf, hinst]

/-- C10 witness: a pause with empty call frames and a non-EventListener
reason faults, while an EventListener pause with empty frames completes and
resumes. -/
theorem debuggerPaused_first_frame_total_iff_witness :
    tC10.debuggerPausedModel pausedC10 = .error indexOutOfRangeMsg ∧
      ∃ r, tC10.debuggerPausedModel pausedC10b = .ok r ∧ r.resumed = true :=
  ⟨(debuggerPaused_first_frame_total_iff tC10 pausedC10).1 (by decide) rfl,
   (debuggerPaused_first_frame_total_iff tC10 pausedC10b).2 (Or.inl rfl)⟩

end WebExfil
